import Mathlib

/-!
Shallow embedding of the Year Projection & Valuation Engine of
`internal/valuation/projection.go` (function `BuildYearProjection` and its
helpers), together with proofs of the specification claims about it.

Modelling conventions:
* Go `float64` values are modelled as exact rationals (`ℚ`); arithmetic is
  therefore exact.
* Go maps (`map[time.Month]...`, `map[int]...`) are modelled as functions
  into `Option`; a map built by a loop of keyed assignments is modelled by a
  left fold that overrides the function at the assigned key, exactly
  mirroring Go's "later assignment wins" semantics.
* `time.Month` values are modelled as `Nat` (January = 1 .. December = 12).
* The one place where the Go code enumerates a map in unspecified order
  (the year-over-year accumulation loop, projection.go lines 117-126) is
  modelled by a fold over an explicit `yoyOrder : List Nat` parameter; the
  canonical entry point instantiates it with the months in numeric order.
  Note that over `ℚ` the fold's value is the same for every order, whereas
  the program's float64 accumulation is order-sensitive (see the C1
  section below): value-level claims are faithfully settled in the exact
  model, but bit-level reproducibility of the program is not.
-/

namespace Valuation

/-- `revenue.MonthlyRevenue` (internal/revenue/record.go lines 25-29). -/
structure MonthlyRevenue where
  year : Int
  month : Nat
  revenue : ℚ
deriving DecidableEq, Repr

/-- Ordering used by `revenue.SortMonthlyRevenues` (record.go lines 116-126):
by year, then by month. -/
def revenueOrder (a b : MonthlyRevenue) : Prop :=
  if a.year = b.year then a.month ≤ b.month else a.year ≤ b.year

instance : DecidableRel revenueOrder := fun a b => by
  unfold revenueOrder; infer_instance

/-- `revenue.SortMonthlyRevenues`: returns a copy of the records sorted by
year/month (record.go lines 116-126).  Go's `sort.Slice` is an unstable
sort; under the data-model precondition of at most one record per
(year, month) any correct sort returns the same list, here realised by
insertion sort. -/
def sortMonthlyRevenues (records : List MonthlyRevenue) : List MonthlyRevenue :=
  List.insertionSort revenueOrder records

/-- `valuation.MonthEstimate` (projection.go lines 12-25). -/
structure MonthEstimate where
  year : Int
  month : Nat
  revenue : ℚ
  previousRevenue : ℚ
  yoy : ℚ
  previousMonthRevenue : ℚ
  mom : ℚ
  referenceYoY : ℚ
  referenceMoM : ℚ
  referenceRevenue : ℚ
  hasReference : Bool
  isActual : Bool
deriving DecidableEq, Repr

/-- `valuation.QuarterInputs` (projection.go lines 28-33). -/
structure QuarterInputs where
  grossMargin : ℚ
  operatingExpense : ℚ
  nonOperatingIncome : ℚ
  taxRate : ℚ
deriving DecidableEq, Repr

/-- `valuation.QuarterBreakdown` (projection.go lines 36-45). -/
structure QuarterBreakdown where
  quarter : Nat
  revenue : ℚ
  grossProfit : ℚ
  operatingIncome : ℚ
  preTaxIncome : ℚ
  netIncome : ℚ
  eps : ℚ
  isActual : Bool
deriving DecidableEq, Repr

/-- `valuation.QuarterOverride` (projection.go lines 62-67); Go's nullable
pointers become `Option`. -/
structure QuarterOverride where
  grossMargin : Option ℚ
  operatingExpense : Option ℚ
  nonOperatingIncome : Option ℚ
  taxRate : Option ℚ
deriving DecidableEq, Repr

/-- `valuation.QuarterActual` (projection.go lines 70-73). -/
structure QuarterActual where
  netIncome : ℚ
  eps : ℚ
deriving DecidableEq, Repr

/-- `valuation.Assumptions` (projection.go lines 48-59).  The two Go maps
keyed by quarter number become `Option`-valued functions (a `nil` map is
the everywhere-`none` function, so Go's `!= nil` guards are absorbed). -/
structure Assumptions where
  grossMargin : ℚ
  operatingExpense : ℚ
  nonOperatingIncome : ℚ
  taxRate : ℚ
  sharesOutstanding : ℚ
  prevQuarterEPS : ℚ
  perMultiple : ℚ
  currentPrice : ℚ
  quarterOverrides : Nat → Option QuarterOverride
  actualQuarters : Nat → Option QuarterActual

/-- `valuation.YearProjection` (projection.go lines 76-86). -/
structure YearProjection where
  year : Int
  months : List MonthEstimate
  quarters : List QuarterBreakdown
  annualRevenue : ℚ
  annualEPS : ℚ
  estimatedPrice : ℚ
  upside : ℚ
  avgYoY : ℚ
  avgMoM : ℚ
deriving DecidableEq, Repr

/-- The two error kinds of `BuildYearProjection` (projection.go lines 92-97):
missing-year-data (`缺少 %d 年的營收資料`) and invalid-assumption
(`SharesOutstanding 必須大於 0`). -/
inductive ProjError where
  | missingYearData (year : Int)
  | invalidShares
deriving DecidableEq, Repr

/-- Go's zero value `YearProjection{}` returned on the error paths. -/
def zeroProjection : YearProjection :=
  { year := 0, months := [], quarters := [], annualRevenue := 0, annualEPS := 0,
    estimatedPrice := 0, upside := 0, avgYoY := 0, avgMoM := 0 }

/-- `previousMonth` (projection.go lines 303-308). -/
def previousMonth (m : Nat) : Nat :=
  if m = 1 then 12 else m - 1

/-- The calendar months January..December, i.e. the index set of the month
loop `for m := time.January; m <= time.December; m++`. -/
def monthsList : List Nat := [1, 2, 3, 4, 5, 6, 7, 8, 9, 10, 11, 12]

/-- One iteration of the `monthMap` construction loop (projection.go
lines 100-105): skip records of other years, otherwise assign
`monthMap[rec.Month] = rec`. -/
def monthMapStep (year : Int) (acc : Nat → Option MonthlyRevenue)
    (rec : MonthlyRevenue) : Nat → Option MonthlyRevenue :=
  if rec.year = year then
    fun m => if m = rec.month then some rec else acc m
  else acc

/-- `monthMap` construction (projection.go lines 99-105): keyed assignment
for each record whose `Year` equals the target year; a later record with
the same month overwrites an earlier one. -/
def buildMonthMap (year : Int) (records : List MonthlyRevenue) :
    Nat → Option MonthlyRevenue :=
  records.foldl (monthMapStep year) (fun _ => none)

/-- One iteration of the `prevMap` construction loop (projection.go
lines 107-109): assign `prevMap[rec.Month] = rec.Revenue`. -/
def prevMapStep (acc : Nat → Option ℚ) (rec : MonthlyRevenue) :
    Nat → Option ℚ :=
  fun m => if m = rec.month then some rec.revenue else acc m

/-- `prevMap` construction (projection.go lines 106-109). -/
def buildPrevMap (records : List MonthlyRevenue) : Nat → Option ℚ :=
  records.foldl prevMapStep (fun _ => none)

/-- The `actualYoY` map (projection.go lines 117-126) described pointwise:
each iteration of the Go loop assigns at most once to the distinct key
`month`, so the finished map is this function.  `prevMap[month]` reads with
Go's zero default. -/
def actualYoYAt (mm : Nat → Option MonthlyRevenue) (pm : Nat → Option ℚ)
    (m : Nat) : Option ℚ :=
  match mm m with
  | none => none
  | some rec =>
    let prev := (pm m).getD 0
    if prev ≤ 0 then none else some ((rec.revenue - prev) / prev)

/-- The `actualMoM` map (projection.go lines 133-151) described pointwise:
the loop body for key `month`, including the previous-month anchor
resolution of lines 135-143 and the positivity guard of line 144. -/
def actualMoMAt (mm : Nat → Option MonthlyRevenue) (pm : Nat → Option ℚ)
    (m : Nat) : Option ℚ :=
  match mm m with
  | none => none
  | some rec =>
    let pMonth := previousMonth m
    let prevRevenue : ℚ :=
      match mm pMonth with
      | some prevRec =>
        if prevRec.year = rec.year then prevRec.revenue
        else if pMonth = 12 then (pm pMonth).getD 0 else 0
      | none => if pMonth = 12 then (pm pMonth).getD 0 else 0
    if prevRevenue ≤ 0 then none
    else some ((rec.revenue - prevRevenue) / prevRevenue)

/-- One iteration of the year-over-year accumulation loop (projection.go
lines 117-126): skip months without a usable prior-year anchor, otherwise
add the month's `yoy` to the sum and bump the count. -/
def yoyStep (mm : Nat → Option MonthlyRevenue) (pm : Nat → Option ℚ)
    (acc : ℚ × Nat) (m : Nat) : ℚ × Nat :=
  match actualYoYAt mm pm m with
  | none => acc
  | some y => (acc.1 + y, acc.2 + 1)

/-- The `yoySum`/`yoyCount` accumulation (projection.go lines 111-126).
The Go loop ranges over the entries of `monthMap` in unspecified map order;
here the enumeration order is the explicit parameter `order`, and months
absent from the map contribute nothing.  Caveat: the Go sum is a float64,
whose value depends on the enumeration order (addition of doubles is not
associative); the exact `ℚ` sum used here does not. -/
def yoyStats (mm : Nat → Option MonthlyRevenue) (pm : Nat → Option ℚ)
    (order : List Nat) : ℚ × Nat :=
  order.foldl (yoyStep mm pm) (0, 0)

/-- One iteration of the month-over-month accumulation loop (projection.go
lines 133-151). -/
def momStep (mm : Nat → Option MonthlyRevenue) (pm : Nat → Option ℚ)
    (acc : ℚ × Nat) (m : Nat) : ℚ × Nat :=
  match actualMoMAt mm pm m with
  | none => acc
  | some v => (acc.1 + v, acc.2 + 1)

/-- The `momSum`/`momCount` accumulation (projection.go lines 127-151): the
loop ranges over `sortedMonths`, the keys of `monthMap` in ascending order,
i.e. the months of `monthsList` present in the map. -/
def momStats (mm : Nat → Option MonthlyRevenue) (pm : Nat → Option ℚ) :
    ℚ × Nat :=
  (monthsList.filter (fun m => (mm m).isSome)).foldl (momStep mm pm) (0, 0)

/-- The guarded averages (projection.go lines 152-159):
`sum / float64(count)` when the count is positive, else 0. -/
def avgOf (sum : ℚ) (count : Nat) : ℚ :=
  if 0 < count then sum / (count : ℚ) else 0

/-- `previousYearMonthRevenue` (projection.go lines 310-321). -/
def previousYearMonthRevenue (mm : Nat → Option MonthlyRevenue)
    (pm : Nat → Option ℚ) (rec : MonthlyRevenue) : ℚ :=
  let pMonth := previousMonth rec.month
  match mm pMonth with
  | some prevRec =>
    if prevRec.year = rec.year then prevRec.revenue
    else if pMonth = 12 then (pm pMonth).getD 0 else 0
  | none => if pMonth = 12 then (pm pMonth).getD 0 else 0

/-- `chooseReferenceRevenue` (projection.go lines 323-334). -/
def chooseReferenceRevenue (prevYear prevMonth revenueYoY revenueMoM : ℚ) : ℚ :=
  if 0 < prevYear ∧ 0 < prevMonth then (revenueYoY + revenueMoM) / 2
  else if 0 < prevYear then revenueYoY
  else if 0 < prevMonth then revenueMoM
  else 0

/-- The read-only context of the month resolution loop
(projection.go lines 161-231): the target year, the two maps, the manual
YoY overrides, and the two average reference rates. -/
structure LoopCtx where
  year : Int
  mm : Nat → Option MonthlyRevenue
  pm : Nat → Option ℚ
  manualYoY : Nat → Option ℚ
  avgYoY : ℚ
  avgMoM : ℚ

/-- One iteration of the month loop (projection.go lines 164-226): the
`MonthEstimate` appended for month `m` given the running last-known revenue
`last` (`lastRevenue` in the Go code). -/
def monthEstimateFor (c : LoopCtx) (last : ℚ) (m : Nat) : MonthEstimate :=
  let prevYearRevenue := (c.pm m).getD 0
  match c.mm m with
  | some rec =>
    -- actual month, lines 167-190
    let yoy := (actualYoYAt c.mm c.pm m).getD 0
    let pmr := if last ≤ 0 then previousYearMonthRevenue c.mm c.pm rec else last
    let mom :=
      match actualMoMAt c.mm c.pm m with
      | some v => v
      | none => if 0 < pmr then (rec.revenue - pmr) / pmr else 0
    { year := c.year, month := m, revenue := rec.revenue,
      previousRevenue := prevYearRevenue, yoy := yoy,
      previousMonthRevenue := pmr, mom := mom,
      referenceYoY := 0, referenceMoM := 0, referenceRevenue := 0,
      hasReference := false, isActual := true }
  | none =>
    -- missing month, lines 192-226
    let yoy := (c.manualYoY m).getD c.avgYoY
    let referenceYoY := yoy
    let referenceMoM := c.avgMoM
    let revenueYoY := prevYearRevenue * (1 + referenceYoY)
    let revenueMoM := last * (1 + referenceMoM)
    let res : ℚ × Bool :=
      if 0 < prevYearRevenue then (revenueYoY, true)
      else if 0 < last then (revenueMoM, true)
      else (revenueYoY, false)
    let mom := if 0 < last then (res.1 - last) / last else 0
    { year := c.year, month := m, revenue := res.1,
      previousRevenue := prevYearRevenue, yoy := yoy,
      previousMonthRevenue := last, mom := mom,
      referenceYoY := referenceYoY, referenceMoM := referenceMoM,
      referenceRevenue :=
        chooseReferenceRevenue prevYearRevenue last revenueYoY revenueMoM,
      hasReference := res.2, isActual := false }

/-- The month resolution loop (projection.go lines 161-231), threading the
accumulators `totalRevenue` and `lastRevenue`: an actual month updates
`lastRevenue` unconditionally to the reported revenue (line 189), an
estimated month only when its estimate is positive (lines 228-230). -/
def monthLoop (c : LoopCtx) :
    List Nat → ℚ → ℚ → List MonthEstimate × ℚ × ℚ
  | [], total, last => ([], total, last)
  | m :: ms, total, last =>
    let e := monthEstimateFor c last m
    let next := if e.isActual then e.revenue
                else if 0 < e.revenue then e.revenue else last
    let r := monthLoop c ms (total + e.revenue) next
    (e :: r.1, r.2)

/-- The re-sort of the estimate list by month (projection.go line 232). -/
def sortMonthsByMonth (months : List MonthEstimate) : List MonthEstimate :=
  List.insertionSort (fun a b => a.month ≤ b.month) months

/-- `Assumptions.quarterInputs` (projection.go lines 336-361): global
defaults with any present per-quarter override fields substituted. -/
def Assumptions.quarterInputs (a : Assumptions) (q : Nat) : QuarterInputs :=
  let inputs : QuarterInputs :=
    { grossMargin := a.grossMargin, operatingExpense := a.operatingExpense,
      nonOperatingIncome := a.nonOperatingIncome, taxRate := a.taxRate }
  match a.quarterOverrides q with
  | none => inputs
  | some o =>
    { grossMargin := o.grossMargin.getD inputs.grossMargin,
      operatingExpense := o.operatingExpense.getD inputs.operatingExpense,
      nonOperatingIncome := o.nonOperatingIncome.getD inputs.nonOperatingIncome,
      taxRate := o.taxRate.getD inputs.taxRate }

/-- One iteration of the quarter loop (projection.go lines 236-281): revenue
aggregation over the quarter's three months (first list entry with the
wanted month, as in the Go linear scan with `break`), margin/tax
computation, and the disclosed-actuals override of lines 269-279. -/
def quarterFor (months : List MonthEstimate) (asm : Assumptions) (q : Nat) :
    QuarterBreakdown :=
  let start := (q - 1) * 3 + 1
  let res :=
    [start, start + 1, start + 2].foldl
      (fun (acc : ℚ × Bool) m =>
        match months.find? (fun item => item.month = m) with
        | none => acc
        | some item => (acc.1 + item.revenue, acc.2 && item.isActual))
      (0, true)
  let inputs := asm.quarterInputs q
  let gross := res.1 * inputs.grossMargin
  let operating := gross - inputs.operatingExpense
  let preTax := operating + inputs.nonOperatingIncome
  let netIncome := preTax * (1 - inputs.taxRate)
  let eps := netIncome / asm.sharesOutstanding
  let quarter : QuarterBreakdown :=
    { quarter := q, revenue := res.1, grossProfit := gross,
      operatingIncome := operating, preTaxIncome := preTax,
      netIncome := netIncome, eps := eps, isActual := res.2 }
  match asm.actualQuarters q with
  | none => quarter
  | some actual =>
    if 0 < actual.netIncome then
      { quarter with
        netIncome := actual.netIncome,
        eps := if 0 < actual.eps then actual.eps
               else actual.netIncome / asm.sharesOutstanding,
        isActual := true }
    else quarter

/-- The quarter list of projection.go lines 234-282, `q = 1..4`. -/
def quartersFor (months : List MonthEstimate) (asm : Assumptions) :
    List QuarterBreakdown :=
  [1, 2, 3, 4].map (quarterFor months asm)

/-- The success-path computation of `BuildYearProjection`
(projection.go lines 99-300), with the map enumeration order of the
year-over-year loop made explicit as `yoyOrder`. -/
def projectionCore (yoyOrder : List Nat) (year : Int)
    (grouped : Int → List MonthlyRevenue) (manualYoY : Nat → Option ℚ)
    (asm : Assumptions) : YearProjection :=
  let current := sortMonthlyRevenues (grouped year)
  let previous := sortMonthlyRevenues (grouped (year - 1))
  let mm := buildMonthMap year current
  let pm := buildPrevMap previous
  let ys := yoyStats mm pm yoyOrder
  let ms := momStats mm pm
  let avgYoY := avgOf ys.1 ys.2
  let avgMoM := avgOf ms.1 ms.2
  let c : LoopCtx :=
    { year := year, mm := mm, pm := pm, manualYoY := manualYoY,
      avgYoY := avgYoY, avgMoM := avgMoM }
  let lr := monthLoop c monthsList 0 0
  let months := sortMonthsByMonth lr.1
  let quarters := quartersFor months asm
  let annualEPS := (quarters.map QuarterBreakdown.eps).sum
  let estimatedPrice := annualEPS * asm.perMultiple
  let upside :=
    if 0 < asm.currentPrice then
      (estimatedPrice - asm.currentPrice) / asm.currentPrice
    else 0
  { year := year, months := months, quarters := quarters,
    annualRevenue := lr.2.1, annualEPS := annualEPS,
    estimatedPrice := estimatedPrice, upside := upside,
    avgYoY := avgYoY, avgMoM := avgMoM }

/-- `BuildYearProjection` (projection.go lines 89-301) with an explicit
enumeration order for the map-ranging loop of lines 117-126.  Following
Go's two-value return, the result pairs the projection value with an
optional error; the error paths return Go's zero-value projection. -/
def buildYearProjectionWithOrder (yoyOrder : List Nat) (year : Int)
    (grouped : Int → List MonthlyRevenue) (manualYoY : Nat → Option ℚ)
    (asm : Assumptions) : YearProjection × Option ProjError :=
  if (sortMonthlyRevenues (grouped year)).length = 0 then
    (zeroProjection, some (ProjError.missingYearData year))
  else if asm.sharesOutstanding ≤ 0 then
    (zeroProjection, some ProjError.invalidShares)
  else
    (projectionCore yoyOrder year grouped manualYoY asm, none)

/-- `BuildYearProjection` (projection.go lines 89-301): the canonical entry
point enumerates the year-over-year loop in calendar order. -/
def buildYearProjection (year : Int) (grouped : Int → List MonthlyRevenue)
    (manualYoY : Nat → Option ℚ) (asm : Assumptions) :
    YearProjection × Option ProjError :=
  buildYearProjectionWithOrder monthsList year grouped manualYoY asm

/-! ### Characterisation of the map-building folds -/

theorem monthMapFold_eq_some {year : Int} {l : List MonthlyRevenue}
    {acc : Nat → Option MonthlyRevenue} {m : Nat} {r : MonthlyRevenue}
    (h : l.foldl (monthMapStep year) acc m = some r) :
    (r ∈ l ∧ r.year = year ∧ r.month = m) ∨ acc m = some r := by
  induction l generalizing acc with
  | nil => exact Or.inr h
  | cons a t ih =>
    simp only [List.foldl_cons] at h
    rcases ih h with h1 | h2
    · exact Or.inl ⟨List.mem_cons_of_mem _ h1.1, h1.2⟩
    · unfold monthMapStep at h2
      by_cases hy : a.year = year
      · simp only [hy, if_true] at h2
        by_cases hm : m = a.month
        · simp only [hm, if_true] at h2
          injection h2 with he
          subst he
          exact Or.inl ⟨List.mem_cons_self _ _, hy, hm.symm⟩
        · simp only [hm, if_false] at h2
          exact Or.inr h2
      · simp only [hy, if_false] at h2
        exact Or.inr h2

theorem monthMapFold_eq_acc {year : Int} {l : List MonthlyRevenue}
    {m : Nat} (acc : Nat → Option MonthlyRevenue)
    (h : ∀ r ∈ l, ¬(r.year = year ∧ r.month = m)) :
    l.foldl (monthMapStep year) acc m = acc m := by
  induction l generalizing acc with
  | nil => rfl
  | cons a t ih =>
    simp only [List.foldl_cons]
    rw [ih _ (fun r hr => h r (List.mem_cons_of_mem _ hr))]
    unfold monthMapStep
    by_cases hy : a.year = year
    · simp only [hy, if_true]
      have := h a (List.mem_cons_self a t)
      by_cases hm : m = a.month
      · exact absurd ⟨hy, hm.symm⟩ this
      · simp [hm]
    · simp [hy]

theorem monthMapFold_mem {year : Int} {l : List MonthlyRevenue}
    {m : Nat} {rec : MonthlyRevenue} (acc : Nat → Option MonthlyRevenue)
    (hmem : rec ∈ l) (hy : rec.year = year) (hm : rec.month = m)
    (huniq : ∀ r ∈ l, r.year = year → r.month = m → r = rec) :
    l.foldl (monthMapStep year) acc m = some rec := by
  induction l generalizing acc with
  | nil => cases hmem
  | cons a t ih =>
    simp only [List.foldl_cons]
    by_cases hex : ∃ r ∈ t, r.year = year ∧ r.month = m
    · obtain ⟨r, hrt, hr⟩ := hex
      have hre : r = rec := huniq r (List.mem_cons_of_mem _ hrt) hr.1 hr.2
      exact ih _ (hre ▸ hrt)
        (fun r' hr' h1 h2 => huniq r' (List.mem_cons_of_mem _ hr') h1 h2)
    · push_neg at hex
      rw [monthMapFold_eq_acc _ (fun r hr hc => hex r hr hc.1 hc.2)]
      have ha : a = rec := by
        rcases List.mem_cons.mp hmem with h | h
        · exact h.symm
        · exact absurd hm (hex rec h hy)
      subst ha
      unfold monthMapStep
      simp [hy, hm.symm]

theorem buildMonthMap_eq_some {year : Int} {l : List MonthlyRevenue}
    {m : Nat} {r : MonthlyRevenue}
    (h : buildMonthMap year l m = some r) :
    r ∈ l ∧ r.year = year ∧ r.month = m := by
  rcases monthMapFold_eq_some h with h1 | h2
  · exact h1
  · cases h2

theorem buildMonthMap_none {year : Int} {l : List MonthlyRevenue} {m : Nat}
    (h : ∀ r ∈ l, ¬(r.year = year ∧ r.month = m)) :
    buildMonthMap year l m = none :=
  monthMapFold_eq_acc _ h

theorem buildMonthMap_mem {year : Int} {l : List MonthlyRevenue}
    {m : Nat} {rec : MonthlyRevenue}
    (hmem : rec ∈ l) (hy : rec.year = year) (hm : rec.month = m)
    (huniq : ∀ r ∈ l, r.year = year → r.month = m → r = rec) :
    buildMonthMap year l m = some rec :=
  monthMapFold_mem _ hmem hy hm huniq

theorem prevMapFold_eq_some {l : List MonthlyRevenue}
    {acc : Nat → Option ℚ} {m : Nat} {v : ℚ}
    (h : l.foldl prevMapStep acc m = some v) :
    (∃ r ∈ l, r.month = m ∧ r.revenue = v) ∨ acc m = some v := by
  induction l generalizing acc with
  | nil => exact Or.inr h
  | cons a t ih =>
    simp only [List.foldl_cons] at h
    rcases ih h with h1 | h2
    · obtain ⟨r, hr, hp⟩ := h1
      exact Or.inl ⟨r, List.mem_cons_of_mem _ hr, hp⟩
    · unfold prevMapStep at h2
      by_cases hm : m = a.month
      · simp only [hm, if_true] at h2
        cases h2
        exact Or.inl ⟨a, List.mem_cons_self a t, hm.symm, rfl⟩
      · simp only [hm, if_false] at h2
        exact Or.inr h2

theorem buildPrevMap_eq_some {l : List MonthlyRevenue} {m : Nat} {v : ℚ}
    (h : buildPrevMap l m = some v) :
    ∃ r ∈ l, r.month = m ∧ r.revenue = v := by
  rcases prevMapFold_eq_some h with h1 | h2
  · exact h1
  · cases h2

theorem buildPrevMap_getD_nonneg {l : List MonthlyRevenue} {m : Nat}
    (h : ∀ r ∈ l, 0 ≤ r.revenue) : 0 ≤ (buildPrevMap l m).getD 0 := by
  cases hv : buildPrevMap l m with
  | none => simp
  | some v =>
    obtain ⟨r, hr, _, hrv⟩ := buildPrevMap_eq_some hv
    simpa [hrv] using h r hr

theorem sortMonthlyRevenues_perm (l : List MonthlyRevenue) :
    List.Perm (sortMonthlyRevenues l) l :=
  List.perm_insertionSort revenueOrder l

theorem mem_sortMonthlyRevenues {l : List MonthlyRevenue}
    {r : MonthlyRevenue} : r ∈ sortMonthlyRevenues l ↔ r ∈ l :=
  (sortMonthlyRevenues_perm l).mem_iff

/-! ### Structure of the month resolution loop -/

theorem monthEstimateFor_month (c : LoopCtx) (last : ℚ) (m : Nat) :
    (monthEstimateFor c last m).month = m := by
  unfold monthEstimateFor
  cases c.mm m <;> rfl

theorem monthEstimateFor_isActual (c : LoopCtx) (last : ℚ) (m : Nat) :
    (monthEstimateFor c last m).isActual = (c.mm m).isSome := by
  unfold monthEstimateFor
  cases c.mm m <;> rfl

theorem monthLoop_map_month (c : LoopCtx) (ms : List Nat) (t l : ℚ) :
    ((monthLoop c ms t l).1.map MonthEstimate.month) = ms := by
  induction ms generalizing t l with
  | nil => rfl
  | cons m ms ih =>
    simp only [monthLoop, List.map_cons, monthEstimateFor_month]
    rw [ih]

theorem monthLoop_mem {c : LoopCtx} {ms : List Nat} {t l : ℚ}
    {e : MonthEstimate} (h : e ∈ (monthLoop c ms t l).1) :
    ∃ l₀ m, m ∈ ms ∧ e = monthEstimateFor c l₀ m := by
  induction ms generalizing t l with
  | nil => cases h
  | cons m ms ih =>
    simp only [monthLoop, List.mem_cons] at h
    rcases h with h | h
    · exact ⟨l, m, List.mem_cons_self _ _, h⟩
    · obtain ⟨l₀, m', hm', he⟩ := ih h
      exact ⟨l₀, m', List.mem_cons_of_mem _ hm', he⟩

theorem monthLoop_append (c : LoopCtx) (as bs : List Nat) (t l : ℚ) :
    monthLoop c (as ++ bs) t l =
      ((monthLoop c as t l).1 ++
        (monthLoop c bs (monthLoop c as t l).2.1 (monthLoop c as t l).2.2).1,
       (monthLoop c bs (monthLoop c as t l).2.1 (monthLoop c as t l).2.2).2) := by
  induction as generalizing t l with
  | nil => rfl
  | cons a as ih =>
    simp only [List.cons_append, monthLoop]
    rw [show List.append as bs = as ++ bs from rfl, ih]

/-- The month loop emits months in ascending order, hence the re-sort on
projection.go line 232 is the identity. -/
theorem sortMonthsByMonth_monthLoop (c : LoopCtx) (t l : ℚ) :
    sortMonthsByMonth (monthLoop c monthsList t l).1 =
      (monthLoop c monthsList t l).1 := by
  apply List.Sorted.insertionSort_eq
  have hmap := monthLoop_map_month c monthsList t l
  have hp : ((monthLoop c monthsList t l).1.map MonthEstimate.month).Pairwise
      (fun a b => a ≤ b) := by
    rw [hmap]
    decide
  rw [List.pairwise_map] at hp
  exact hp

/-! ### The accumulation folds -/

theorem momFold_filterMap (mm : Nat → Option MonthlyRevenue)
    (pm : Nat → Option ℚ) (ms : List Nat) :
    ∀ acc : ℚ × Nat,
      ms.foldl (momStep mm pm) acc =
        (acc.1 + (ms.filterMap (actualMoMAt mm pm)).sum,
         acc.2 + (ms.filterMap (actualMoMAt mm pm)).length) := by
  induction ms with
  | nil => intro acc; simp
  | cons m ms ih =>
    intro acc
    simp only [List.foldl_cons, List.filterMap_cons]
    cases hv : actualMoMAt mm pm m with
    | none =>
      rw [show momStep mm pm acc m = acc by unfold momStep; rw [hv]]
      exact ih acc
    | some v =>
      rw [show momStep mm pm acc m = (acc.1 + v, acc.2 + 1) by
        unfold momStep; rw [hv]]
      rw [ih]
      simp only [List.sum_cons, List.length_cons, Prod.mk.injEq]
      exact ⟨by ring, by omega⟩

theorem momFold_filter_member (mm : Nat → Option MonthlyRevenue)
    (pm : Nat → Option ℚ) (ms : List Nat) :
    ∀ acc : ℚ × Nat,
      (ms.filter (fun m => (mm m).isSome)).foldl (momStep mm pm) acc =
        ms.foldl (momStep mm pm) acc := by
  induction ms with
  | nil => intro acc; rfl
  | cons m ms ih =>
    intro acc
    by_cases hm : (mm m).isSome
    · simp only [List.filter_cons, hm, if_true, List.foldl_cons]
      exact ih _
    · have hnone : mm m = none := Option.not_isSome_iff_eq_none.mp hm
      have hstep : momStep mm pm acc m = acc := by
        unfold momStep actualMoMAt
        rw [hnone]
      simp only [List.filter_cons, hm, if_false, List.foldl_cons, hstep]
      exact ih _

theorem momStats_eq_filterMap (mm : Nat → Option MonthlyRevenue)
    (pm : Nat → Option ℚ) :
    momStats mm pm =
      ((monthsList.filterMap (actualMoMAt mm pm)).sum,
       (monthsList.filterMap (actualMoMAt mm pm)).length) := by
  unfold momStats
  rw [momFold_filter_member, momFold_filterMap]
  simp

/-! ### Success-path elimination -/

theorem build_success {yoyOrder : List Nat} {year : Int}
    {grouped : Int → List MonthlyRevenue} {manualYoY : Nat → Option ℚ}
    {asm : Assumptions}
    (h : (buildYearProjectionWithOrder yoyOrder year grouped manualYoY asm).2 = none) :
    ¬(sortMonthlyRevenues (grouped year)).length = 0 ∧
      ¬asm.sharesOutstanding ≤ 0 ∧
      (buildYearProjectionWithOrder yoyOrder year grouped manualYoY asm).1 =
        projectionCore yoyOrder year grouped manualYoY asm := by
  unfold buildYearProjectionWithOrder at h ⊢
  by_cases h1 : (sortMonthlyRevenues (grouped year)).length = 0
  · simp [h1] at h
  · by_cases h2 : asm.sharesOutstanding ≤ 0
    · simp [h1, h2] at h
    · simp [h1, h2]

/-! ### Shape of the quarter aggregation -/

theorem quarterFor_quarter (months : List MonthEstimate) (asm : Assumptions)
    (q : Nat) : (quarterFor months asm q).quarter = q := by
  unfold quarterFor
  cases asm.actualQuarters q with
  | none => rfl
  | some a =>
    by_cases h : 0 < a.netIncome <;> simp [h]

theorem quarterFor_override {months : List MonthEstimate} {asm : Assumptions}
    {q : Nat} {a : QuarterActual}
    (ha : asm.actualQuarters q = some a) (hpos : 0 < a.netIncome) :
    (quarterFor months asm q).netIncome = a.netIncome ∧
    (quarterFor months asm q).eps =
      (if 0 < a.eps then a.eps else a.netIncome / asm.sharesOutstanding) ∧
    (quarterFor months asm q).isActual = true := by
  unfold quarterFor
  rw [ha]
  simp [hpos]

/-! ### Concrete fixtures (the scenario of the package test
`TestBuildYearProjection`) used by the witnesses -/

def sample2023 : List MonthlyRevenue :=
  [⟨2023, 1, 300⟩, ⟨2023, 2, 280⟩, ⟨2023, 3, 320⟩, ⟨2023, 4, 330⟩,
   ⟨2023, 5, 340⟩, ⟨2023, 6, 350⟩, ⟨2023, 7, 360⟩, ⟨2023, 8, 370⟩,
   ⟨2023, 9, 380⟩, ⟨2023, 10, 390⟩, ⟨2023, 11, 400⟩, ⟨2023, 12, 410⟩]

def sample2024 : List MonthlyRevenue := [⟨2024, 1, 388⟩, ⟨2024, 2, 388⟩]

def sampleGrouped : Int → List MonthlyRevenue := fun y =>
  if y = 2023 then sample2023 else if y = 2024 then sample2024 else []

def sampleManualYoY : Nat → Option ℚ := fun m =>
  if m = 3 then some (1 / 10) else none

def sampleAssumptions : Assumptions :=
  { grossMargin := 173 / 1000, operatingExpense := 38,
    nonOperatingIncome := 38, taxRate := 1 / 5, sharesOutstanding := 80,
    prevQuarterEPS := 0, perMultiple := 23, currentPrice := 56,
    quarterOverrides := fun _ => none,
    actualQuarters := fun q => if q = 1 then some ⟨1000, 5 / 4⟩ else none }

/-! ### Claim C1 (code bug: the year-over-year accumulation ranges over a
Go map in unspecified order, in float64)

The `yoySum`/`yoyCount` loop (projection.go lines 117-126) iterates
`range monthMap`, Go's randomized map enumeration order, accumulating a
`float64` sum.  IEEE-754 double addition is not associative, so the value
of `yoySum` — and, through `AvgYoY = yoySum / float64(yoyCount)`, a field
of the returned `YearProjection` — depends on that enumeration order,
contradicting the spec's determinism requirement (explicit 1..12 iteration,
bit-for-bit reproducible results).  The exact-rational embedding cannot
exhibit the divergence (over `ℚ` every summation order yields the same
value); the theorem below instead evaluates the embedded loop at the
failing input to document the three order-sensitive samples the float64
code adds in map order. -/

/-- Concrete input for the C1 failing case: three actual months in both
years.  The three YoY samples are `-136/489`, `-11/341` and `139/294`; as
Go float64 values they are `-0.278118609406953`, `-0.03225806451612903`
and `0.47278911564625853`, and `AvgYoY = (their float64 sum) / 3` is the
double `0x1.bb7e8691c1543p-5` when the map happens to enumerate
Jan,Feb,Mar but `0x1.bb7e8691c1540p-5` when it enumerates Feb,Mar,Jan —
two invocations with identical inputs can return different bits. -/
def c1Grouped : Int → List MonthlyRevenue := fun y =>
  if y = 2023 then [⟨2023, 1, 489⟩, ⟨2023, 2, 341⟩, ⟨2023, 3, 294⟩]
  else if y = 2024 then [⟨2024, 1, 353⟩, ⟨2024, 2, 330⟩, ⟨2024, 3, 433⟩]
  else []

/-- Evaluation of the embedded engine at the C1 failing input: the
year-over-year loop records exactly the three samples `-136/489`,
`-11/341`, `139/294` (here summed exactly; the float64 program sums their
rounded counterparts in whatever order the map yields, which changes the
result's low-order bits). -/
theorem yoyStats_at_c1_failing_input :
    yoyStats (buildMonthMap 2024 (sortMonthlyRevenues (c1Grouped 2024)))
      (buildPrevMap (sortMonthlyRevenues (c1Grouped (2024 - 1))))
      monthsList =
      (-136 / 489 + -11 / 341 + 139 / 294, 3) := by
  norm_num [yoyStats, yoyStep, actualYoYAt, buildMonthMap, buildPrevMap,
    monthMapStep, prevMapStep, sortMonthlyRevenues, List.insertionSort,
    List.orderedInsert, revenueOrder, monthsList, c1Grouped]

/-! ### Claim C3 -/

/-- Claim C3: on every successful invocation the returned `Months` list has
length exactly 12 with months strictly increasing January..December (its
month projection is literally `[1, ..., 12]`), and `Quarters` has length
exactly 4 with quarter numbers in order `[1, 2, 3, 4]` — regardless of how
many months were actually reported. -/
theorem buildYearProjection_shape (year : Int)
    (grouped : Int → List MonthlyRevenue) (manualYoY : Nat → Option ℚ)
    (asm : Assumptions)
    (h : (buildYearProjection year grouped manualYoY asm).2 = none) :
    (buildYearProjection year grouped manualYoY asm).1.months.map
        MonthEstimate.month = monthsList ∧
    (buildYearProjection year grouped manualYoY asm).1.months.length = 12 ∧
    (buildYearProjection year grouped manualYoY asm).1.quarters.map
        QuarterBreakdown.quarter = [1, 2, 3, 4] ∧
    (buildYearProjection year grouped manualYoY asm).1.quarters.length = 4 := by
  unfold buildYearProjection at h ⊢
  obtain ⟨-, -, hcore⟩ := build_success h
  rw [hcore]
  simp only [projectionCore]
  rw [sortMonthsByMonth_monthLoop]
  have hmm := monthLoop_map_month
    { year := year,
      mm := buildMonthMap year (sortMonthlyRevenues (grouped year)),
      pm := buildPrevMap (sortMonthlyRevenues (grouped (year - 1))),
      manualYoY := manualYoY,
      avgYoY := avgOf (yoyStats (buildMonthMap year (sortMonthlyRevenues (grouped year)))
          (buildPrevMap (sortMonthlyRevenues (grouped (year - 1)))) monthsList).1
        (yoyStats (buildMonthMap year (sortMonthlyRevenues (grouped year)))
          (buildPrevMap (sortMonthlyRevenues (grouped (year - 1)))) monthsList).2,
      avgMoM := avgOf (momStats (buildMonthMap year (sortMonthlyRevenues (grouped year)))
          (buildPrevMap (sortMonthlyRevenues (grouped (year - 1))))).1
        (momStats (buildMonthMap year (sortMonthlyRevenues (grouped year)))
          (buildPrevMap (sortMonthlyRevenues (grouped (year - 1))))).2 }
    monthsList 0 0
  refine ⟨hmm, ?_, ?_, ?_⟩
  · have := congrArg List.length hmm
    simpa using this
  · simp [quartersFor, List.map_map, Function.comp, quarterFor_quarter]
  · simp [quartersFor]

theorem buildYearProjection_shape_witness :
    (buildYearProjection 2024 sampleGrouped sampleManualYoY
        sampleAssumptions).2 = none ∧
    (buildYearProjection 2024 sampleGrouped sampleManualYoY
        sampleAssumptions).1.months.map MonthEstimate.month = monthsList ∧
    (buildYearProjection 2024 sampleGrouped sampleManualYoY
        sampleAssumptions).1.months.length = 12 ∧
    (buildYearProjection 2024 sampleGrouped sampleManualYoY
        sampleAssumptions).1.quarters.map QuarterBreakdown.quarter =
      [1, 2, 3, 4] ∧
    (buildYearProjection 2024 sampleGrouped sampleManualYoY
        sampleAssumptions).1.quarters.length = 4 := by
  refine ⟨by decide, ?_⟩
  have := buildYearProjection_shape 2024 sampleGrouped sampleManualYoY
    sampleAssumptions (by decide)
  exact this

/-! ### Claim C4 -/

/-- Claim C4: if the assumptions carry a disclosed actual for quarter `q`
with positive net income, then in every successful result the quarter
breakdown for `q` — the element of `Quarters` whose quarter number is `q`,
which by C3 sits at index `q-1` — has exactly the disclosed net income,
an EPS equal to the disclosed EPS when that is positive and otherwise
`netIncome / sharesOutstanding`, and `isActual = true`; no hypothesis
about the actuality of the constituent months is needed. -/
theorem buildYearProjection_quarter_disclosure_override (year : Int)
    (grouped : Int → List MonthlyRevenue) (manualYoY : Nat → Option ℚ)
    (asm : Assumptions) (q : Nat) (a : QuarterActual)
    (hsucc : (buildYearProjection year grouped manualYoY asm).2 = none)
    (hq : 1 ≤ q ∧ q ≤ 4)
    (ha : asm.actualQuarters q = some a) (hpos : 0 < a.netIncome) :
    (∃ qb ∈ (buildYearProjection year grouped manualYoY asm).1.quarters,
      qb.quarter = q) ∧
    ∀ qb ∈ (buildYearProjection year grouped manualYoY asm).1.quarters,
      qb.quarter = q →
        qb.netIncome = a.netIncome ∧
        qb.eps = (if 0 < a.eps then a.eps
                  else a.netIncome / asm.sharesOutstanding) ∧
        qb.isActual = true := by
  unfold buildYearProjection at hsucc ⊢
  obtain ⟨-, -, hcore⟩ := build_success hsucc
  rw [hcore]
  simp only [projectionCore]
  constructor
  · simp only [quartersFor]
    have hq4 : q ∈ [1, 2, 3, 4] := by
      have h4 : q = 1 ∨ q = 2 ∨ q = 3 ∨ q = 4 := by omega
      rcases h4 with h | h | h | h <;> simp [h]
    exact ⟨_, List.mem_map_of_mem _ hq4, quarterFor_quarter _ _ _⟩
  · intro qb hqb hquarter
    unfold quartersFor at hqb
    obtain ⟨q', _, hq'⟩ := List.mem_map.mp hqb
    have : q' = q := by
      rw [← hquarter, ← hq', quarterFor_quarter]
    subst this
    rw [← hq']
    exact quarterFor_override ha hpos

theorem buildYearProjection_quarter_disclosure_override_witness :
    (buildYearProjection 2024 sampleGrouped sampleManualYoY
        sampleAssumptions).2 = none ∧
    (1 ≤ 1 ∧ 1 ≤ 4) ∧
    sampleAssumptions.actualQuarters 1 = some ⟨1000, 5 / 4⟩ ∧
    (0 : ℚ) < 1000 ∧
    ((∃ qb ∈ (buildYearProjection 2024 sampleGrouped sampleManualYoY
        sampleAssumptions).1.quarters, qb.quarter = 1) ∧
      ∀ qb ∈ (buildYearProjection 2024 sampleGrouped sampleManualYoY
          sampleAssumptions).1.quarters,
        qb.quarter = 1 →
          qb.netIncome = (1000 : ℚ) ∧
          qb.eps = (if (0 : ℚ) < 5 / 4 then (5 / 4 : ℚ)
                    else 1000 / sampleAssumptions.sharesOutstanding) ∧
          qb.isActual = true) :=
  ⟨by decide, ⟨by decide, by decide⟩, by rfl, by decide,
   buildYearProjection_quarter_disclosure_override 2024 sampleGrouped
     sampleManualYoY sampleAssumptions 1 ⟨1000, 5 / 4⟩ (by decide)
     ⟨by decide, by decide⟩ (by rfl) (by decide)⟩

/-! ### Claim C7 (corrected: the missing-year-data check runs first) -/

/-- Assumptions with a zero share count, used by the C7 counterexample and
witness. -/
def zeroSharesAssumptions : Assumptions :=
  { grossMargin := 0, operatingExpense := 0, nonOperatingIncome := 0,
    taxRate := 0, sharesOutstanding := 0, prevQuarterEPS := 0,
    perMultiple := 0, currentPrice := 0, quarterOverrides := fun _ => none,
    actualQuarters := fun _ => none }

/-- Counterexample to claim C7 as stated: with `SharesOutstanding = 0` AND
no revenue records for the requested year, `BuildYearProjection` returns
the missing-year-data error, not the invalid-assumption error — the
`len(current) == 0` check (projection.go line 92) runs before the
`SharesOutstanding <= 0` check (line 95). -/
theorem missing_data_error_beats_invalid_shares :
    zeroSharesAssumptions.sharesOutstanding ≤ 0 ∧
    (buildYearProjection 2024 (fun _ => []) (fun _ => none)
        zeroSharesAssumptions).2 = some (ProjError.missingYearData 2024) ∧
    (buildYearProjection 2024 (fun _ => []) (fun _ => none)
        zeroSharesAssumptions).2 ≠ some ProjError.invalidShares := by
  refine ⟨by decide, by decide, by decide⟩

/-- Claim C7 as amended: for every input that has revenue records for the
target year and `SharesOutstanding <= 0`, `BuildYearProjection` returns
the invalid-assumption error together with the zero-value projection —
detected before any computation proceeds, with no partial output. -/
theorem buildYearProjection_invalid_shares_error (year : Int)
    (grouped : Int → List MonthlyRevenue) (manualYoY : Nat → Option ℚ)
    (asm : Assumptions) (hdata : grouped year ≠ [])
    (hshares : asm.sharesOutstanding ≤ 0) :
    buildYearProjection year grouped manualYoY asm =
      (zeroProjection, some ProjError.invalidShares) := by
  unfold buildYearProjection buildYearProjectionWithOrder
  have hlen : ¬(sortMonthlyRevenues (grouped year)).length = 0 := by
    rw [(sortMonthlyRevenues_perm _).length_eq]
    intro hzero
    exact hdata (List.eq_nil_of_length_eq_zero hzero)
  simp [hlen, hshares]

theorem buildYearProjection_invalid_shares_error_witness :
    sampleGrouped 2024 ≠ [] ∧
    zeroSharesAssumptions.sharesOutstanding ≤ 0 ∧
    buildYearProjection 2024 sampleGrouped sampleManualYoY
        zeroSharesAssumptions =
      (zeroProjection, some ProjError.invalidShares) :=
  ⟨by decide, by decide,
   buildYearProjection_invalid_shares_error 2024 sampleGrouped
     sampleManualYoY zeroSharesAssumptions (by decide) (by decide)⟩

/-! ### Per-branch characterisation of the month estimates -/

theorem monthEstimateFor_actual {c : LoopCtx} {last : ℚ} {m : Nat}
    {rec : MonthlyRevenue} (h : c.mm m = some rec) :
    (monthEstimateFor c last m).isActual = true ∧
    (monthEstimateFor c last m).revenue = rec.revenue := by
  unfold monthEstimateFor
  rw [h]
  exact ⟨rfl, rfl⟩

theorem monthEstimateFor_missing {c : LoopCtx} {last : ℚ} {m : Nat}
    (h : c.mm m = none) :
    (monthEstimateFor c last m).isActual = false ∧
    (monthEstimateFor c last m).previousRevenue = (c.pm m).getD 0 ∧
    (monthEstimateFor c last m).previousMonthRevenue = last ∧
    (monthEstimateFor c last m).yoy = (c.manualYoY m).getD c.avgYoY ∧
    (monthEstimateFor c last m).referenceYoY = (c.manualYoY m).getD c.avgYoY ∧
    (monthEstimateFor c last m).referenceMoM = c.avgMoM ∧
    (0 < (c.pm m).getD 0 →
      (monthEstimateFor c last m).revenue =
        (c.pm m).getD 0 * (1 + (c.manualYoY m).getD c.avgYoY) ∧
      (monthEstimateFor c last m).hasReference = true) ∧
    (¬0 < (c.pm m).getD 0 → 0 < last →
      (monthEstimateFor c last m).revenue = last * (1 + c.avgMoM) ∧
      (monthEstimateFor c last m).hasReference = true) ∧
    (¬0 < (c.pm m).getD 0 → ¬0 < last →
      (monthEstimateFor c last m).revenue =
        (c.pm m).getD 0 * (1 + (c.manualYoY m).getD c.avgYoY) ∧
      (monthEstimateFor c last m).hasReference = false) ∧
    (monthEstimateFor c last m).referenceRevenue =
      chooseReferenceRevenue ((c.pm m).getD 0) last
        ((c.pm m).getD 0 * (1 + (c.manualYoY m).getD c.avgYoY))
        (last * (1 + c.avgMoM)) := by
  unfold monthEstimateFor
  rw [h]
  by_cases h1 : 0 < (c.pm m).getD 0 <;> by_cases h2 : 0 < last <;>
    simp [h1, h2]

/-! ### Claim C2 -/

/-- Claim C2: in every successful result, every missing (non-actual) month
resolves its revenue by this priority: the effective `yoy` is the manual
override for that month if supplied, else `avgYoY`; if the prior-year
same-month revenue (recorded in the estimate's `previousRevenue`) is
positive, `revenue = previousRevenue * (1 + yoy)` with
`hasReference = true`; else if the running last-known revenue (recorded in
`previousMonthRevenue`) is positive, `revenue =
previousMonthRevenue * (1 + avgMoM)` with `hasReference = true`; else
`revenue = 0` with `hasReference = false`.  In particular the MoM-derived
candidate is never selected when a prior-year anchor exists.  The
hypothesis that prior-year revenues are non-negative is the data-model
precondition (`MonthRecord.revenue` is a non-negative real). -/
theorem buildYearProjection_missing_month_priority (year : Int)
    (grouped : Int → List MonthlyRevenue) (manualYoY : Nat → Option ℚ)
    (asm : Assumptions)
    (hsucc : (buildYearProjection year grouped manualYoY asm).2 = none)
    (hprevnn : ∀ r ∈ grouped (year - 1), 0 ≤ r.revenue) :
    ∀ e ∈ (buildYearProjection year grouped manualYoY asm).1.months,
      e.isActual = false →
        e.yoy = (manualYoY e.month).getD
          (buildYearProjection year grouped manualYoY asm).1.avgYoY ∧
        (0 < e.previousRevenue →
          e.revenue = e.previousRevenue * (1 + e.yoy) ∧
          e.hasReference = true) ∧
        (¬0 < e.previousRevenue → 0 < e.previousMonthRevenue →
          e.revenue = e.previousMonthRevenue *
            (1 + (buildYearProjection year grouped manualYoY asm).1.avgMoM) ∧
          e.hasReference = true) ∧
        (¬0 < e.previousRevenue → ¬0 < e.previousMonthRevenue →
          e.revenue = 0 ∧ e.hasReference = false) := by
  unfold buildYearProjection at hsucc ⊢
  obtain ⟨-, -, hcore⟩ := build_success hsucc
  rw [hcore]
  simp only [projectionCore]
  rw [sortMonthsByMonth_monthLoop]
  intro e he hact
  obtain ⟨l₀, m', hm', he'⟩ := monthLoop_mem he
  subst he'
  have hmonth := monthEstimateFor_month
    { year := year,
      mm := buildMonthMap year (sortMonthlyRevenues (grouped year)),
      pm := buildPrevMap (sortMonthlyRevenues (grouped (year - 1))),
      manualYoY := manualYoY,
      avgYoY := avgOf (yoyStats (buildMonthMap year (sortMonthlyRevenues (grouped year)))
          (buildPrevMap (sortMonthlyRevenues (grouped (year - 1)))) monthsList).1
        (yoyStats (buildMonthMap year (sortMonthlyRevenues (grouped year)))
          (buildPrevMap (sortMonthlyRevenues (grouped (year - 1)))) monthsList).2,
      avgMoM := avgOf (momStats (buildMonthMap year (sortMonthlyRevenues (grouped year)))
          (buildPrevMap (sortMonthlyRevenues (grouped (year - 1))))).1
        (momStats (buildMonthMap year (sortMonthlyRevenues (grouped year)))
          (buildPrevMap (sortMonthlyRevenues (grouped (year - 1))))).2 }
    l₀ m'
  set c : LoopCtx :=
    { year := year,
      mm := buildMonthMap year (sortMonthlyRevenues (grouped year)),
      pm := buildPrevMap (sortMonthlyRevenues (grouped (year - 1))),
      manualYoY := manualYoY,
      avgYoY := avgOf (yoyStats (buildMonthMap year (sortMonthlyRevenues (grouped year)))
          (buildPrevMap (sortMonthlyRevenues (grouped (year - 1)))) monthsList).1
        (yoyStats (buildMonthMap year (sortMonthlyRevenues (grouped year)))
          (buildPrevMap (sortMonthlyRevenues (grouped (year - 1)))) monthsList).2,
      avgMoM := avgOf (momStats (buildMonthMap year (sortMonthlyRevenues (grouped year)))
          (buildPrevMap (sortMonthlyRevenues (grouped (year - 1))))).1
        (momStats (buildMonthMap year (sortMonthlyRevenues (grouped year)))
          (buildPrevMap (sortMonthlyRevenues (grouped (year - 1))))).2 }
    with hc
  have hnone : c.mm m' = none := by
    have := monthEstimateFor_isActual c l₀ m'
    rw [hact] at this
    exact Option.not_isSome_iff_eq_none.mp (by rw [← this]; simp)
  obtain ⟨-, hprev, hpmr, hyoy, -, -, hcase1, hcase2, hcase3, -⟩ :=
    @monthEstimateFor_missing c l₀ m' hnone
  rw [hmonth, hprev, hpmr, hyoy]
  have hpm_nonneg : 0 ≤ (c.pm m').getD 0 := by
    apply buildPrevMap_getD_nonneg
    intro r hr
    exact hprevnn r (mem_sortMonthlyRevenues.mp hr)
  refine ⟨rfl, ?_, ?_, ?_⟩
  · intro hp
    exact (hcase1 hp).imp (fun hrev => by rw [hrev]) id
  · intro hp hl
    exact (hcase2 hp hl).imp (fun hrev => by rw [hrev]) id
  · intro hp hl
    obtain ⟨hrev, href⟩ := hcase3 hp hl
    have hzero : (c.pm m').getD 0 = 0 := le_antisymm (not_lt.mp hp) hpm_nonneg
    rw [hrev, hzero]
    exact ⟨by ring, href⟩

theorem buildYearProjection_missing_month_priority_witness :
    (buildYearProjection 2024 sampleGrouped sampleManualYoY
        sampleAssumptions).2 = none ∧
    (∀ r ∈ sampleGrouped (2024 - 1), 0 ≤ r.revenue) ∧
    (∀ e ∈ (buildYearProjection 2024 sampleGrouped sampleManualYoY
        sampleAssumptions).1.months,
      e.isActual = false →
        e.yoy = (sampleManualYoY e.month).getD
          (buildYearProjection 2024 sampleGrouped sampleManualYoY
            sampleAssumptions).1.avgYoY ∧
        (0 < e.previousRevenue →
          e.revenue = e.previousRevenue * (1 + e.yoy) ∧
          e.hasReference = true) ∧
        (¬0 < e.previousRevenue → 0 < e.previousMonthRevenue →
          e.revenue = e.previousMonthRevenue *
            (1 + (buildYearProjection 2024 sampleGrouped sampleManualYoY
              sampleAssumptions).1.avgMoM) ∧
          e.hasReference = true) ∧
        (¬0 < e.previousRevenue → ¬0 < e.previousMonthRevenue →
          e.revenue = 0 ∧ e.hasReference = false)) :=
  ⟨by decide, by decide,
   buildYearProjection_missing_month_priority 2024 sampleGrouped
     sampleManualYoY sampleAssumptions (by decide) (by decide)⟩

/-! ### Claim C6 (corrected: the reference revenue is chosen by anchor
positivity, not candidate positivity) -/

/-- Spec-side rule, modelled from the claim's words for C6: the average of
the two candidate revenues when both candidates are positive, otherwise
whichever single candidate is positive, otherwise 0. -/
def refRevenueSpec (revenueYoY revenueMoM : ℚ) : ℚ :=
  if 0 < revenueYoY ∧ 0 < revenueMoM then (revenueYoY + revenueMoM) / 2
  else if 0 < revenueYoY then revenueYoY
  else if 0 < revenueMoM then revenueMoM
  else 0

/-- Concrete input for the C6 counterexample: 2024 has only January
(revenue 50), 2023 has only March (revenue 100), and the manual YoY
override for March is -100%, making the YoY candidate 0 while the MoM
candidate is 50. -/
def c6Grouped : Int → List MonthlyRevenue := fun y =>
  if y = 2023 then [⟨2023, 3, 100⟩]
  else if y = 2024 then [⟨2024, 1, 50⟩] else []

def c6ManualYoY : Nat → Option ℚ := fun m =>
  if m = 3 then some (-1) else none

def c6Assumptions : Assumptions :=
  { grossMargin := 0, operatingExpense := 0, nonOperatingIncome := 0,
    taxRate := 0, sharesOutstanding := 80, prevQuarterEPS := 0,
    perMultiple := 0, currentPrice := 0, quarterOverrides := fun _ => none,
    actualQuarters := fun _ => none }

/-- Counterexample to claim C6 as stated: for the estimated March above,
the candidates are `revenueYoY = 100 * (1 + (-1)) = 0` and
`revenueMoM = 50 * (1 + 0) = 50`; the claim's rule (only one candidate is
positive, so take it) yields 50, but the code computes
`ReferenceRevenue = (0 + 50) / 2 = 25` because `chooseReferenceRevenue`
branches on positivity of the two anchors (100 and 50), not of the two
candidates. -/
theorem chooseReferenceRevenue_not_candidate_based :
    (buildYearProjection 2024 c6Grouped c6ManualYoY
        c6Assumptions).1.months.get? 2 =
      some ⟨2024, 3, 0, 100, -1, 50, -1, -1, 0, 25, true, false⟩ ∧
    refRevenueSpec (100 * (1 + (-1))) (50 * (1 + 0)) = 50 ∧
    (25 : ℚ) ≠ 50 := by
  refine ⟨?_, by norm_num [refRevenueSpec], by norm_num⟩
  norm_num [buildYearProjection, buildYearProjectionWithOrder, projectionCore,
    sortMonthlyRevenues, sortMonthsByMonth, buildMonthMap, buildPrevMap,
    monthMapStep, prevMapStep, yoyStats, yoyStep, momStats, momStep,
    actualYoYAt, actualMoMAt, avgOf, monthLoop, monthEstimateFor,
    previousMonth, previousYearMonthRevenue, chooseReferenceRevenue,
    monthsList, c6Grouped, c6ManualYoY, c6Assumptions,
    List.insertionSort, List.orderedInsert, revenueOrder]

/-- Claim C6 as amended (changed only as the counterexample forces): for
every missing month of a successful result, `ReferenceRevenue` is the
average of the two candidates when both anchors — the prior-year
same-month revenue (`previousRevenue`) and the running previous-month
revenue (`previousMonthRevenue`) — are positive; else the YoY candidate
when the prior-year anchor is positive; else the MoM candidate when the
previous-month anchor is positive; else 0.  The candidates are
`previousRevenue * (1 + referenceYoY)` and
`previousMonthRevenue * (1 + referenceMoM)`. -/
theorem buildYearProjection_reference_revenue_anchor_based (year : Int)
    (grouped : Int → List MonthlyRevenue) (manualYoY : Nat → Option ℚ)
    (asm : Assumptions)
    (hsucc : (buildYearProjection year grouped manualYoY asm).2 = none) :
    ∀ e ∈ (buildYearProjection year grouped manualYoY asm).1.months,
      e.isActual = false →
        e.referenceRevenue =
          chooseReferenceRevenue e.previousRevenue e.previousMonthRevenue
            (e.previousRevenue * (1 + e.referenceYoY))
            (e.previousMonthRevenue * (1 + e.referenceMoM)) := by
  unfold buildYearProjection at hsucc ⊢
  obtain ⟨-, -, hcore⟩ := build_success hsucc
  rw [hcore]
  simp only [projectionCore]
  rw [sortMonthsByMonth_monthLoop]
  intro e he hact
  obtain ⟨l₀, m', hm', he'⟩ := monthLoop_mem he
  subst he'
  set c : LoopCtx :=
    { year := year,
      mm := buildMonthMap year (sortMonthlyRevenues (grouped year)),
      pm := buildPrevMap (sortMonthlyRevenues (grouped (year - 1))),
      manualYoY := manualYoY,
      avgYoY := avgOf (yoyStats (buildMonthMap year (sortMonthlyRevenues (grouped year)))
          (buildPrevMap (sortMonthlyRevenues (grouped (year - 1)))) monthsList).1
        (yoyStats (buildMonthMap year (sortMonthlyRevenues (grouped year)))
          (buildPrevMap (sortMonthlyRevenues (grouped (year - 1)))) monthsList).2,
      avgMoM := avgOf (momStats (buildMonthMap year (sortMonthlyRevenues (grouped year)))
          (buildPrevMap (sortMonthlyRevenues (grouped (year - 1))))).1
        (momStats (buildMonthMap year (sortMonthlyRevenues (grouped year)))
          (buildPrevMap (sortMonthlyRevenues (grouped (year - 1))))).2 }
    with hc
  have hnone : c.mm m' = none := by
    have := monthEstimateFor_isActual c l₀ m'
    rw [hact] at this
    exact Option.not_isSome_iff_eq_none.mp (by rw [← this]; simp)
  obtain ⟨-, hprev, hpmr, -, hryoy, hrmom, -, -, -, hrr⟩ :=
    @monthEstimateFor_missing c l₀ m' hnone
  rw [hrr, hprev, hpmr, hryoy, hrmom]

theorem buildYearProjection_reference_revenue_anchor_based_witness :
    (buildYearProjection 2024 sampleGrouped sampleManualYoY
        sampleAssumptions).2 = none ∧
    (∀ e ∈ (buildYearProjection 2024 sampleGrouped sampleManualYoY
        sampleAssumptions).1.months,
      e.isActual = false →
        e.referenceRevenue =
          chooseReferenceRevenue e.previousRevenue e.previousMonthRevenue
            (e.previousRevenue * (1 + e.referenceYoY))
            (e.previousMonthRevenue * (1 + e.referenceMoM))) :=
  ⟨by decide,
   buildYearProjection_reference_revenue_anchor_based 2024 sampleGrouped
     sampleManualYoY sampleAssumptions (by decide)⟩

/-! ### Claim C8 -/

/-- Claim C8: for every month of the target year with a reported record
(the record's `Year` equal to the target year, at most one record per
month, month in 1..12), the corresponding `MonthEstimate` of every
successful result exists, has `IsActual = true`, and carries exactly the
reported revenue — no smoothing of actual data. -/
theorem buildYearProjection_actual_month_exact (year : Int)
    (grouped : Int → List MonthlyRevenue) (manualYoY : Nat → Option ℚ)
    (asm : Assumptions) (rec : MonthlyRevenue)
    (hsucc : (buildYearProjection year grouped manualYoY asm).2 = none)
    (hmem : rec ∈ grouped year) (hy : rec.year = year)
    (hm1 : 1 ≤ rec.month) (hm2 : rec.month ≤ 12)
    (huniq : ∀ r ∈ grouped year, r.year = year → r.month = rec.month →
      r = rec) :
    (∃ e ∈ (buildYearProjection year grouped manualYoY asm).1.months,
      e.month = rec.month) ∧
    ∀ e ∈ (buildYearProjection year grouped manualYoY asm).1.months,
      e.month = rec.month → e.isActual = true ∧ e.revenue = rec.revenue := by
  unfold buildYearProjection at hsucc ⊢
  obtain ⟨-, -, hcore⟩ := build_success hsucc
  rw [hcore]
  simp only [projectionCore]
  rw [sortMonthsByMonth_monthLoop]
  set c : LoopCtx :=
    { year := year,
      mm := buildMonthMap year (sortMonthlyRevenues (grouped year)),
      pm := buildPrevMap (sortMonthlyRevenues (grouped (year - 1))),
      manualYoY := manualYoY,
      avgYoY := avgOf (yoyStats (buildMonthMap year (sortMonthlyRevenues (grouped year)))
          (buildPrevMap (sortMonthlyRevenues (grouped (year - 1)))) monthsList).1
        (yoyStats (buildMonthMap year (sortMonthlyRevenues (grouped year)))
          (buildPrevMap (sortMonthlyRevenues (grouped (year - 1)))) monthsList).2,
      avgMoM := avgOf (momStats (buildMonthMap year (sortMonthlyRevenues (grouped year)))
          (buildPrevMap (sortMonthlyRevenues (grouped (year - 1))))).1
        (momStats (buildMonthMap year (sortMonthlyRevenues (grouped year)))
          (buildPrevMap (sortMonthlyRevenues (grouped (year - 1))))).2 }
    with hc
  have hsome : c.mm rec.month = some rec := by
    apply buildMonthMap_mem (mem_sortMonthlyRevenues.mpr hmem) hy rfl
    intro r hr h1 h2
    exact huniq r (mem_sortMonthlyRevenues.mp hr) h1 h2
  constructor
  · have hmonths : rec.month ∈ monthsList := by
      have h12 : rec.month = 1 ∨ rec.month = 2 ∨ rec.month = 3 ∨
          rec.month = 4 ∨ rec.month = 5 ∨ rec.month = 6 ∨ rec.month = 7 ∨
          rec.month = 8 ∨ rec.month = 9 ∨ rec.month = 10 ∨
          rec.month = 11 ∨ rec.month = 12 := by omega
      rcases h12 with h | h | h | h | h | h | h | h | h | h | h | h <;>
        simp [h, monthsList]
    rw [← monthLoop_map_month c monthsList 0 0] at hmonths
    obtain ⟨e, he, hem⟩ := List.mem_map.mp hmonths
    exact ⟨e, he, hem⟩
  · intro e he hemonth
    obtain ⟨l₀, m', hm', he'⟩ := monthLoop_mem he
    subst he'
    rw [monthEstimateFor_month] at hemonth
    subst hemonth
    exact monthEstimateFor_actual hsome

theorem buildYearProjection_actual_month_exact_witness :
    (buildYearProjection 2024 sampleGrouped sampleManualYoY
        sampleAssumptions).2 = none ∧
    (⟨2024, 1, 388⟩ : MonthlyRevenue) ∈ sampleGrouped 2024 ∧
    (∀ r ∈ sampleGrouped 2024, r.year = 2024 → r.month = 1 →
      r = (⟨2024, 1, 388⟩ : MonthlyRevenue)) ∧
    ((∃ e ∈ (buildYearProjection 2024 sampleGrouped sampleManualYoY
        sampleAssumptions).1.months, e.month = 1) ∧
      ∀ e ∈ (buildYearProjection 2024 sampleGrouped sampleManualYoY
          sampleAssumptions).1.months,
        e.month = 1 → e.isActual = true ∧ e.revenue = 388) :=
  ⟨by decide, by decide, by decide,
   buildYearProjection_actual_month_exact 2024 sampleGrouped sampleManualYoY
     sampleAssumptions ⟨2024, 1, 388⟩ (by decide) (by decide) (by decide)
     (by decide) (by decide) (by decide)⟩

/-! ### Claim C10 -/

theorem monthLoop_consecutive_mem {c : LoopCtx} {m : Nat}
    {rec : MonthlyRevenue} (pre suf : List Nat) (t l : ℚ)
    (hsome : c.mm m = some rec) :
    monthEstimateFor c rec.revenue (m + 1) ∈
      (monthLoop c (pre ++ m :: (m + 1) :: suf) t l).1 := by
  rw [monthLoop_append]
  apply List.mem_append_right
  obtain ⟨hact, hrev⟩ :=
    @monthEstimateFor_actual c ((monthLoop c pre t l).2.2) m rec hsome
  simp only [monthLoop, hact, hrev, if_true]
  exact List.mem_cons_of_mem _ (List.mem_cons_self _ _)

theorem monthsList_decomp {m : Nat} (h1 : 1 ≤ m) (h2 : m < 12) :
    ∃ pre suf : List Nat, monthsList = pre ++ m :: (m + 1) :: suf := by
  have h11 : m = 1 ∨ m = 2 ∨ m = 3 ∨ m = 4 ∨ m = 5 ∨ m = 6 ∨ m = 7 ∨
      m = 8 ∨ m = 9 ∨ m = 10 ∨ m = 11 := by omega
  rcases h11 with h | h | h | h | h | h | h | h | h | h | h <;> subst h
  · exact ⟨[], [3, 4, 5, 6, 7, 8, 9, 10, 11, 12], by decide⟩
  · exact ⟨[1], [4, 5, 6, 7, 8, 9, 10, 11, 12], by decide⟩
  · exact ⟨[1, 2], [5, 6, 7, 8, 9, 10, 11, 12], by decide⟩
  · exact ⟨[1, 2, 3], [6, 7, 8, 9, 10, 11, 12], by decide⟩
  · exact ⟨[1, 2, 3, 4], [7, 8, 9, 10, 11, 12], by decide⟩
  · exact ⟨[1, 2, 3, 4, 5], [8, 9, 10, 11, 12], by decide⟩
  · exact ⟨[1, 2, 3, 4, 5, 6], [9, 10, 11, 12], by decide⟩
  · exact ⟨[1, 2, 3, 4, 5, 6, 7], [10, 11, 12], by decide⟩
  · exact ⟨[1, 2, 3, 4, 5, 6, 7, 8], [11, 12], by decide⟩
  · exact ⟨[1, 2, 3, 4, 5, 6, 7, 8, 9], [12], by decide⟩
  · exact ⟨[1, 2, 3, 4, 5, 6, 7, 8, 9, 10], [], by decide⟩

theorem monthLoop_missing_pair_mem {c : LoopCtx} {m : Nat}
    (pre suf : List Nat) (t l : ℚ) (hnone : c.mm m = none) :
    monthEstimateFor c ((monthLoop c pre t l).2.2) m ∈
      (monthLoop c (pre ++ m :: (m + 1) :: suf) t l).1 ∧
    monthEstimateFor c
        (if 0 < (monthEstimateFor c ((monthLoop c pre t l).2.2) m).revenue
         then (monthEstimateFor c ((monthLoop c pre t l).2.2) m).revenue
         else (monthLoop c pre t l).2.2) (m + 1) ∈
      (monthLoop c (pre ++ m :: (m + 1) :: suf) t l).1 := by
  rw [monthLoop_append]
  have hact : (monthEstimateFor c ((monthLoop c pre t l).2.2) m).isActual =
      false := (monthEstimateFor_missing hnone).1
  constructor
  · apply List.mem_append_right
    simp only [monthLoop]
    exact List.mem_cons_self _ _
  · apply List.mem_append_right
    simp only [monthLoop, hact, Bool.false_eq_true, if_false]
    exact List.mem_cons_of_mem _ (List.mem_cons_self _ _)

/-- Claim C10: the running last-known revenue obeys the month loop's
asymmetric update rule, observed through the `previousMonthRevenue` of
the following missing month.  Part 1 (actual month): the running revenue
is updated unconditionally to the reported revenue, even a reported 0, so
the immediately following missing month sees exactly that value; when the
report is 0 the MoM anchor is thereby cleared, and the following missing
month, if it also lacks a positive prior-year revenue, gets
`Revenue = 0` and `HasReference = false`.  Part 2 (estimated month): the
running revenue is updated only when the estimate is positive — the
missing month after an estimated month sees the estimate's revenue when
that is positive, and the unchanged previous running value (the
estimate's own `previousMonthRevenue`) otherwise.  (The hypothesis that
prior-year revenues are non-negative is the data-model precondition.) -/
theorem buildYearProjection_last_revenue_update_rule (year : Int)
    (grouped : Int → List MonthlyRevenue) (manualYoY : Nat → Option ℚ)
    (asm : Assumptions)
    (hsucc : (buildYearProjection year grouped manualYoY asm).2 = none)
    (hprevnn : ∀ r ∈ grouped (year - 1), 0 ≤ r.revenue) :
    (∀ rec : MonthlyRevenue, rec ∈ grouped year → rec.year = year →
      1 ≤ rec.month → rec.month < 12 →
      (∀ r ∈ grouped year, r.year = year → r.month = rec.month → r = rec) →
      (∀ r ∈ grouped year, r.year = year → r.month ≠ rec.month + 1) →
      ∀ e ∈ (buildYearProjection year grouped manualYoY asm).1.months,
        e.month = rec.month + 1 →
          e.isActual = false ∧
          e.previousMonthRevenue = rec.revenue ∧
          (rec.revenue = 0 → ¬0 < e.previousRevenue →
            e.revenue = 0 ∧ e.hasReference = false)) ∧
    (∀ m : Nat, 1 ≤ m → m < 12 →
      (∀ r ∈ grouped year, r.year = year → r.month ≠ m) →
      (∀ r ∈ grouped year, r.year = year → r.month ≠ m + 1) →
      ∀ e ∈ (buildYearProjection year grouped manualYoY asm).1.months,
        e.month = m →
        ∀ e' ∈ (buildYearProjection year grouped manualYoY asm).1.months,
          e'.month = m + 1 →
            e'.previousMonthRevenue =
              (if 0 < e.revenue then e.revenue
               else e.previousMonthRevenue)) := by
  unfold buildYearProjection at hsucc ⊢
  obtain ⟨-, -, hcore⟩ := build_success hsucc
  rw [hcore]
  simp only [projectionCore]
  rw [sortMonthsByMonth_monthLoop]
  set c : LoopCtx :=
    { year := year,
      mm := buildMonthMap year (sortMonthlyRevenues (grouped year)),
      pm := buildPrevMap (sortMonthlyRevenues (grouped (year - 1))),
      manualYoY := manualYoY,
      avgYoY := avgOf (yoyStats (buildMonthMap year (sortMonthlyRevenues (grouped year)))
          (buildPrevMap (sortMonthlyRevenues (grouped (year - 1)))) monthsList).1
        (yoyStats (buildMonthMap year (sortMonthlyRevenues (grouped year)))
          (buildPrevMap (sortMonthlyRevenues (grouped (year - 1)))) monthsList).2,
      avgMoM := avgOf (momStats (buildMonthMap year (sortMonthlyRevenues (grouped year)))
          (buildPrevMap (sortMonthlyRevenues (grouped (year - 1))))).1
        (momStats (buildMonthMap year (sortMonthlyRevenues (grouped year)))
          (buildPrevMap (sortMonthlyRevenues (grouped (year - 1))))).2 }
    with hc
  have hnodup : ((monthLoop c monthsList 0 0).1.map
      MonthEstimate.month).Nodup := by
    rw [monthLoop_map_month]
    decide
  constructor
  · intro rec hmem hy hm1 hm2 huniq hmiss e he hemonth
    have hmm_some : c.mm rec.month = some rec := by
      apply buildMonthMap_mem (mem_sortMonthlyRevenues.mpr hmem) hy rfl
      intro r hr h1 h2
      exact huniq r (mem_sortMonthlyRevenues.mp hr) h1 h2
    have hmm_none : c.mm (rec.month + 1) = none := by
      apply buildMonthMap_none
      intro r hr hcon
      exact hmiss r (mem_sortMonthlyRevenues.mp hr) hcon.1 hcon.2
    obtain ⟨pre, suf, hdec⟩ := monthsList_decomp hm1 hm2
    have hmem2 : monthEstimateFor c rec.revenue (rec.month + 1) ∈
        (monthLoop c monthsList 0 0).1 := by
      rw [hdec]
      exact monthLoop_consecutive_mem pre suf 0 0 hmm_some
    have hee : e = monthEstimateFor c rec.revenue (rec.month + 1) := by
      apply List.inj_on_of_nodup_map hnodup he hmem2
      rw [hemonth, monthEstimateFor_month]
    rw [hee]
    obtain ⟨hact, hprevF, hpmr, -, -, -, -, -, hcase3, -⟩ :=
      @monthEstimateFor_missing c rec.revenue (rec.month + 1) hmm_none
    refine ⟨hact, hpmr, ?_⟩
    intro hz hp
    rw [hprevF] at hp
    have hlast : ¬0 < rec.revenue := by rw [hz]; exact lt_irrefl 0
    obtain ⟨hrev, href⟩ := hcase3 hp hlast
    have hpm_nonneg : 0 ≤ (c.pm (rec.month + 1)).getD 0 := by
      apply buildPrevMap_getD_nonneg
      intro r hr
      exact hprevnn r (mem_sortMonthlyRevenues.mp hr)
    have hzero : (c.pm (rec.month + 1)).getD 0 = 0 :=
      le_antisymm (not_lt.mp hp) hpm_nonneg
    rw [hrev, hzero]
    exact ⟨by ring, href⟩
  · intro m hm1 hm2 hmissm hmissm1 e he hem e' he' hem1
    have hnone_m : c.mm m = none := by
      apply buildMonthMap_none
      intro r hr hcon
      exact hmissm r (mem_sortMonthlyRevenues.mp hr) hcon.1 hcon.2
    have hnone_m1 : c.mm (m + 1) = none := by
      apply buildMonthMap_none
      intro r hr hcon
      exact hmissm1 r (mem_sortMonthlyRevenues.mp hr) hcon.1 hcon.2
    obtain ⟨pre, suf, hdec⟩ := monthsList_decomp hm1 hm2
    have hpair := monthLoop_missing_pair_mem pre suf 0 0 hnone_m
    rw [← hdec] at hpair
    have hee : e = monthEstimateFor c ((monthLoop c pre 0 0).2.2) m := by
      apply List.inj_on_of_nodup_map hnodup he hpair.1
      rw [hem, monthEstimateFor_month]
    have hee' : e' = monthEstimateFor c
        (if 0 < (monthEstimateFor c ((monthLoop c pre 0 0).2.2) m).revenue
         then (monthEstimateFor c ((monthLoop c pre 0 0).2.2) m).revenue
         else (monthLoop c pre 0 0).2.2) (m + 1) := by
      apply List.inj_on_of_nodup_map hnodup he' hpair.2
      rw [hem1, monthEstimateFor_month]
    rw [hee, hee']
    have hpmr_m : (monthEstimateFor c ((monthLoop c pre 0 0).2.2)
        m).previousMonthRevenue = (monthLoop c pre 0 0).2.2 :=
      (monthEstimateFor_missing hnone_m).2.2.1
    have hpmr_m1 := (@monthEstimateFor_missing c
        (if 0 < (monthEstimateFor c ((monthLoop c pre 0 0).2.2) m).revenue
         then (monthEstimateFor c ((monthLoop c pre 0 0).2.2) m).revenue
         else (monthLoop c pre 0 0).2.2) (m + 1) hnone_m1).2.2.1
    rw [hpmr_m1, hpmr_m]

/-- Concrete input for the C10 witness: 2024 has only January, reported
as 0; there is no prior-year data at all. -/
def c10Grouped : Int → List MonthlyRevenue := fun y =>
  if y = 2024 then [⟨2024, 1, 0⟩] else []

theorem buildYearProjection_last_revenue_update_rule_witness :
    (buildYearProjection 2024 c10Grouped (fun _ => none)
        c6Assumptions).2 = none ∧
    (∀ r ∈ c10Grouped (2024 - 1), 0 ≤ r.revenue) ∧
    ((∀ rec : MonthlyRevenue, rec ∈ c10Grouped 2024 → rec.year = 2024 →
      1 ≤ rec.month → rec.month < 12 →
      (∀ r ∈ c10Grouped 2024, r.year = 2024 → r.month = rec.month →
        r = rec) →
      (∀ r ∈ c10Grouped 2024, r.year = 2024 → r.month ≠ rec.month + 1) →
      ∀ e ∈ (buildYearProjection 2024 c10Grouped (fun _ => none)
          c6Assumptions).1.months,
        e.month = rec.month + 1 →
          e.isActual = false ∧
          e.previousMonthRevenue = rec.revenue ∧
          (rec.revenue = 0 → ¬0 < e.previousRevenue →
            e.revenue = 0 ∧ e.hasReference = false)) ∧
    (∀ m : Nat, 1 ≤ m → m < 12 →
      (∀ r ∈ c10Grouped 2024, r.year = 2024 → r.month ≠ m) →
      (∀ r ∈ c10Grouped 2024, r.year = 2024 → r.month ≠ m + 1) →
      ∀ e ∈ (buildYearProjection 2024 c10Grouped (fun _ => none)
          c6Assumptions).1.months,
        e.month = m →
        ∀ e' ∈ (buildYearProjection 2024 c10Grouped (fun _ => none)
            c6Assumptions).1.months,
          e'.month = m + 1 →
            e'.previousMonthRevenue =
              (if 0 < e.revenue then e.revenue
               else e.previousMonthRevenue))) :=
  ⟨by decide, by decide,
   buildYearProjection_last_revenue_update_rule 2024 c10Grouped
     (fun _ => none) c6Assumptions (by decide) (by decide)⟩

/-! ### Claim C9: instrumented copy in which every division checks its
divisor.  A `none` result signals a division with zero divisor; the claim
is that the instrumented engine never produces `none` — every division in
projection.go (lines 122, 147, 154, 158, 175, 211, 258, 275, 287 and the
constant `/2` of line 325) sits behind a strict-positivity check. -/

/-- Division with an explicit divisor-zero check. -/
def guardedDiv (x y : ℚ) : Option ℚ :=
  if y = 0 then none else some (x / y)

theorem guardedDiv_of_ne {x y : ℚ} (h : y ≠ 0) :
    guardedDiv x y = some (x / y) := by
  unfold guardedDiv
  rw [if_neg h]

/-- `yoyStep` with the division of projection.go line 122 instrumented. -/
def yoyStepChecked (mm : Nat → Option MonthlyRevenue) (pm : Nat → Option ℚ)
    (acc : ℚ × Nat) (m : Nat) : Option (ℚ × Nat) :=
  match mm m with
  | none => some acc
  | some rec =>
    let prev := (pm m).getD 0
    if prev ≤ 0 then some acc
    else do
      let y ← guardedDiv (rec.revenue - prev) prev
      some (acc.1 + y, acc.2 + 1)

theorem yoyStepChecked_eq (mm : Nat → Option MonthlyRevenue)
    (pm : Nat → Option ℚ) (acc : ℚ × Nat) (m : Nat) :
    yoyStepChecked mm pm acc m = some (yoyStep mm pm acc m) := by
  unfold yoyStepChecked yoyStep actualYoYAt
  cases mm m with
  | none => rfl
  | some rec =>
    by_cases hp : (pm m).getD 0 ≤ 0
    · simp [hp]
    · have hne : (pm m).getD 0 ≠ 0 := fun h => hp (le_of_eq h)
      simp [hp, guardedDiv_of_ne hne]

/-- `momStep` with the division of projection.go line 147 instrumented. -/
def momStepChecked (mm : Nat → Option MonthlyRevenue) (pm : Nat → Option ℚ)
    (acc : ℚ × Nat) (m : Nat) : Option (ℚ × Nat) :=
  match mm m with
  | none => some acc
  | some rec =>
    let pMonth := previousMonth m
    let prevRevenue : ℚ :=
      match mm pMonth with
      | some prevRec =>
        if prevRec.year = rec.year then prevRec.revenue
        else if pMonth = 12 then (pm pMonth).getD 0 else 0
      | none => if pMonth = 12 then (pm pMonth).getD 0 else 0
    if prevRevenue ≤ 0 then some acc
    else do
      let v ← guardedDiv (rec.revenue - prevRevenue) prevRevenue
      some (acc.1 + v, acc.2 + 1)

theorem momStepChecked_eq (mm : Nat → Option MonthlyRevenue)
    (pm : Nat → Option ℚ) (acc : ℚ × Nat) (m : Nat) :
    momStepChecked mm pm acc m = some (momStep mm pm acc m) := by
  unfold momStepChecked momStep actualMoMAt
  cases hm : mm m with
  | none => simp [hm]
  | some rec =>
    simp only [hm]
    cases hpm : mm (previousMonth m) with
    | none =>
      by_cases hp : ((if previousMonth m = 12
          then (pm (previousMonth m)).getD 0 else 0) : ℚ) ≤ 0
      · simp [hpm, hp]
      · have hne : ((if previousMonth m = 12
            then (pm (previousMonth m)).getD 0 else 0) : ℚ) ≠ 0 :=
          fun h => hp (le_of_eq h)
        simp [hpm, hp, guardedDiv_of_ne hne]
    | some prevRec =>
      by_cases hp : ((if prevRec.year = rec.year then prevRec.revenue
          else if previousMonth m = 12
          then (pm (previousMonth m)).getD 0 else 0) : ℚ) ≤ 0
      · simp [hpm, hp]
      · have hne : ((if prevRec.year = rec.year then prevRec.revenue
            else if previousMonth m = 12
            then (pm (previousMonth m)).getD 0 else 0) : ℚ) ≠ 0 :=
          fun h => hp (le_of_eq h)
        simp [hpm, hp, guardedDiv_of_ne hne]

theorem foldlM_eq_foldl {α β : Type} {g : β → α → Option β} {f : β → α → β}
    (h : ∀ b a, g b a = some (f b a)) (l : List α) :
    ∀ b, l.foldlM g b = some (l.foldl f b) := by
  induction l with
  | nil => intro b; rfl
  | cons a t ih =>
    intro b
    simp only [List.foldlM_cons, List.foldl_cons, h, Option.some_bind]
    exact ih (f b a)

/-- `yoyStats` with its division instrumented. -/
def yoyStatsChecked (mm : Nat → Option MonthlyRevenue)
    (pm : Nat → Option ℚ) (order : List Nat) : Option (ℚ × Nat) :=
  order.foldlM (yoyStepChecked mm pm) (0, 0)

theorem yoyStatsChecked_eq (mm : Nat → Option MonthlyRevenue)
    (pm : Nat → Option ℚ) (order : List Nat) :
    yoyStatsChecked mm pm order = some (yoyStats mm pm order) :=
  foldlM_eq_foldl (yoyStepChecked_eq mm pm) order (0, 0)

/-- `momStats` with its division instrumented. -/
def momStatsChecked (mm : Nat → Option MonthlyRevenue)
    (pm : Nat → Option ℚ) : Option (ℚ × Nat) :=
  (monthsList.filter (fun m => (mm m).isSome)).foldlM
    (momStepChecked mm pm) (0, 0)

theorem momStatsChecked_eq (mm : Nat → Option MonthlyRevenue)
    (pm : Nat → Option ℚ) :
    momStatsChecked mm pm = some (momStats mm pm) :=
  foldlM_eq_foldl (momStepChecked_eq mm pm) _ (0, 0)

/-- The guarded averages (projection.go lines 152-159) with the divisions
instrumented. -/
def avgOfChecked (sum : ℚ) (count : Nat) : Option ℚ :=
  if 0 < count then guardedDiv sum (count : ℚ) else some 0

theorem avgOfChecked_eq (sum : ℚ) (count : Nat) :
    avgOfChecked sum count = some (avgOf sum count) := by
  unfold avgOfChecked avgOf
  by_cases hc : 0 < count
  · have hne : ((count : ℚ)) ≠ 0 :=
      Nat.cast_ne_zero.mpr (Nat.pos_iff_ne_zero.mp hc)
    simp [hc, guardedDiv_of_ne hne]
  · simp [hc]

/-- `chooseReferenceRevenue` with the division of projection.go line 325
instrumented. -/
def chooseReferenceRevenueChecked (prevYear prevMonth revenueYoY
    revenueMoM : ℚ) : Option ℚ :=
  if 0 < prevYear ∧ 0 < prevMonth then guardedDiv (revenueYoY + revenueMoM) 2
  else if 0 < prevYear then some revenueYoY
  else if 0 < prevMonth then some revenueMoM
  else some 0

theorem chooseReferenceRevenueChecked_eq (prevYear prevMonth revenueYoY
    revenueMoM : ℚ) :
    chooseReferenceRevenueChecked prevYear prevMonth revenueYoY revenueMoM =
      some (chooseReferenceRevenue prevYear prevMonth revenueYoY
        revenueMoM) := by
  unfold chooseReferenceRevenueChecked chooseReferenceRevenue
  have h2 : (2 : ℚ) ≠ 0 := by norm_num
  by_cases h : 0 < prevYear ∧ 0 < prevMonth
  · simp [h, guardedDiv_of_ne h2]
  · simp only [h, if_false]
    split_ifs <;> rfl

/-- `monthEstimateFor` with the divisions of projection.go lines 175 and
211 instrumented (the `actualYoY`/`actualMoM` map reads perform no
division; their divisions belong to the accumulation loops). -/
def monthEstimateForChecked (c : LoopCtx) (last : ℚ) (m : Nat) :
    Option MonthEstimate :=
  let prevYearRevenue := (c.pm m).getD 0
  match c.mm m with
  | some rec => do
    let yoy := (actualYoYAt c.mm c.pm m).getD 0
    let pmr := if last ≤ 0 then previousYearMonthRevenue c.mm c.pm rec
               else last
    let mom ←
      (match actualMoMAt c.mm c.pm m with
      | some v => some v
      | none =>
        if 0 < pmr then guardedDiv (rec.revenue - pmr) pmr else some 0)
    some
      { year := c.year, month := m, revenue := rec.revenue,
        previousRevenue := prevYearRevenue, yoy := yoy,
        previousMonthRevenue := pmr, mom := mom,
        referenceYoY := 0, referenceMoM := 0, referenceRevenue := 0,
        hasReference := false, isActual := true }
  | none => do
    let yoy := (c.manualYoY m).getD c.avgYoY
    let referenceYoY := yoy
    let referenceMoM := c.avgMoM
    let revenueYoY := prevYearRevenue * (1 + referenceYoY)
    let revenueMoM := last * (1 + referenceMoM)
    let res : ℚ × Bool :=
      if 0 < prevYearRevenue then (revenueYoY, true)
      else if 0 < last then (revenueMoM, true)
      else (revenueYoY, false)
    let mom ←
      if 0 < last then guardedDiv (res.1 - last) last else some 0
    let refRev ← chooseReferenceRevenueChecked prevYearRevenue last
      revenueYoY revenueMoM
    some
      { year := c.year, month := m, revenue := res.1,
        previousRevenue := prevYearRevenue, yoy := yoy,
        previousMonthRevenue := last, mom := mom,
        referenceYoY := referenceYoY, referenceMoM := referenceMoM,
        referenceRevenue := refRev, hasReference := res.2,
        isActual := false }

theorem monthEstimateForChecked_eq (c : LoopCtx) (last : ℚ) (m : Nat) :
    monthEstimateForChecked c last m = some (monthEstimateFor c last m) := by
  unfold monthEstimateForChecked monthEstimateFor
  cases hcm : c.mm m with
  | some rec =>
    simp only [hcm]
    cases hm : actualMoMAt c.mm c.pm m with
    | some v => simp [hm]
    | none =>
      by_cases hpmr : 0 < (if last ≤ 0
          then previousYearMonthRevenue c.mm c.pm rec else last)
      · have hne : (if last ≤ 0
            then previousYearMonthRevenue c.mm c.pm rec else last) ≠ 0 :=
          ne_of_gt hpmr
        simp [hm, hpmr, guardedDiv_of_ne hne]
      · simp [hm, hpmr]
  | none =>
    simp only [hcm, chooseReferenceRevenueChecked_eq, Option.some_bind]
    by_cases hl : 0 < last
    · have hne : last ≠ 0 := ne_of_gt hl
      simp [hl, guardedDiv_of_ne hne]
    · simp [hl]

/-- `monthLoop` over the instrumented month estimates. -/
def monthLoopChecked (c : LoopCtx) :
    List Nat → ℚ → ℚ → Option (List MonthEstimate × ℚ × ℚ)
  | [], total, last => some ([], total, last)
  | m :: ms, total, last => do
    let e ← monthEstimateForChecked c last m
    let next := if e.isActual then e.revenue
                else if 0 < e.revenue then e.revenue else last
    let r ← monthLoopChecked c ms (total + e.revenue) next
    some (e :: r.1, r.2)

theorem monthLoopChecked_eq (c : LoopCtx) (ms : List Nat) :
    ∀ total last, monthLoopChecked c ms total last =
      some (monthLoop c ms total last) := by
  induction ms with
  | nil => intro total last; rfl
  | cons m t ih =>
    intro total last
    unfold monthLoopChecked monthLoop
    simp [monthEstimateForChecked_eq, ih]

/-- `quarterFor` with the divisions of projection.go lines 258 and 275
instrumented. -/
def quarterForChecked (months : List MonthEstimate) (asm : Assumptions)
    (q : Nat) : Option QuarterBreakdown :=
  let start := (q - 1) * 3 + 1
  let res :=
    [start, start + 1, start + 2].foldl
      (fun (acc : ℚ × Bool) m =>
        match months.find? (fun item => item.month = m) with
        | none => acc
        | some item => (acc.1 + item.revenue, acc.2 && item.isActual))
      (0, true)
  let inputs := asm.quarterInputs q
  let gross := res.1 * inputs.grossMargin
  let operating := gross - inputs.operatingExpense
  let preTax := operating + inputs.nonOperatingIncome
  let netIncome := preTax * (1 - inputs.taxRate)
  do
    let eps ← guardedDiv netIncome asm.sharesOutstanding
    let quarter : QuarterBreakdown :=
      { quarter := q, revenue := res.1, grossProfit := gross,
        operatingIncome := operating, preTaxIncome := preTax,
        netIncome := netIncome, eps := eps, isActual := res.2 }
    match asm.actualQuarters q with
    | none => some quarter
    | some actual =>
      if 0 < actual.netIncome then do
        let eps2 ← if 0 < actual.eps then some actual.eps
                   else guardedDiv actual.netIncome asm.sharesOutstanding
        some
          { quarter with
            netIncome := actual.netIncome, eps := eps2, isActual := true }
      else some quarter

theorem quarterForChecked_eq {asm : Assumptions}
    (hsh : asm.sharesOutstanding ≠ 0) (months : List MonthEstimate)
    (q : Nat) :
    quarterForChecked months asm q = some (quarterFor months asm q) := by
  unfold quarterForChecked quarterFor
  simp only [guardedDiv_of_ne hsh, Option.some_bind]
  cases asm.actualQuarters q with
  | none => rfl
  | some actual =>
    by_cases hni : 0 < actual.netIncome
    · by_cases heps : 0 < actual.eps
      · simp [hni, heps]
      · simp [hni, heps, guardedDiv_of_ne hsh]
    · simp [hni]

/-- The quarter loop `q = 1..4` over the instrumented aggregation. -/
def quartersForChecked (months : List MonthEstimate) (asm : Assumptions) :
    Option (List QuarterBreakdown) := do
  let q1 ← quarterForChecked months asm 1
  let q2 ← quarterForChecked months asm 2
  let q3 ← quarterForChecked months asm 3
  let q4 ← quarterForChecked months asm 4
  some [q1, q2, q3, q4]

theorem quartersForChecked_eq {asm : Assumptions}
    (hsh : asm.sharesOutstanding ≠ 0) (months : List MonthEstimate) :
    quartersForChecked months asm = some (quartersFor months asm) := by
  unfold quartersForChecked quartersFor
  simp only [quarterForChecked_eq hsh, Option.some_bind]
  rfl

/-- The success-path computation with every division instrumented. -/
def projectionCoreChecked (yoyOrder : List Nat) (year : Int)
    (grouped : Int → List MonthlyRevenue) (manualYoY : Nat → Option ℚ)
    (asm : Assumptions) : Option YearProjection := do
  let current := sortMonthlyRevenues (grouped year)
  let previous := sortMonthlyRevenues (grouped (year - 1))
  let mm := buildMonthMap year current
  let pm := buildPrevMap previous
  let ys ← yoyStatsChecked mm pm yoyOrder
  let ms ← momStatsChecked mm pm
  let avgYoY ← avgOfChecked ys.1 ys.2
  let avgMoM ← avgOfChecked ms.1 ms.2
  let c : LoopCtx :=
    { year := year, mm := mm, pm := pm, manualYoY := manualYoY,
      avgYoY := avgYoY, avgMoM := avgMoM }
  let lr ← monthLoopChecked c monthsList 0 0
  let months := sortMonthsByMonth lr.1
  let quarters ← quartersForChecked months asm
  let annualEPS := (quarters.map QuarterBreakdown.eps).sum
  let estimatedPrice := annualEPS * asm.perMultiple
  let upside ←
    if 0 < asm.currentPrice then
      guardedDiv (estimatedPrice - asm.currentPrice) asm.currentPrice
    else some 0
  some
    { year := year, months := months, quarters := quarters,
      annualRevenue := lr.2.1, annualEPS := annualEPS,
      estimatedPrice := estimatedPrice, upside := upside,
      avgYoY := avgYoY, avgMoM := avgMoM }

theorem projectionCoreChecked_eq (yoyOrder : List Nat) (year : Int)
    (grouped : Int → List MonthlyRevenue) (manualYoY : Nat → Option ℚ)
    {asm : Assumptions} (hsh : asm.sharesOutstanding ≠ 0) :
    projectionCoreChecked yoyOrder year grouped manualYoY asm =
      some (projectionCore yoyOrder year grouped manualYoY asm) := by
  unfold projectionCoreChecked projectionCore
  simp only [yoyStatsChecked_eq, momStatsChecked_eq, avgOfChecked_eq,
    monthLoopChecked_eq, quartersForChecked_eq hsh, Option.some_bind]
  by_cases hcp : 0 < asm.currentPrice
  · have hne : asm.currentPrice ≠ 0 := ne_of_gt hcp
    simp [hcp, guardedDiv_of_ne hne]
  · simp [hcp]

/-- `BuildYearProjection` with every division instrumented. -/
def buildYearProjectionChecked (year : Int)
    (grouped : Int → List MonthlyRevenue) (manualYoY : Nat → Option ℚ)
    (asm : Assumptions) : Option (YearProjection × Option ProjError) :=
  if (sortMonthlyRevenues (grouped year)).length = 0 then
    some (zeroProjection, some (ProjError.missingYearData year))
  else if asm.sharesOutstanding ≤ 0 then
    some (zeroProjection, some ProjError.invalidShares)
  else do
    let p ← projectionCoreChecked monthsList year grouped manualYoY asm
    some (p, none)

/-- Claim C9: apart from the two declared error cases the engine never
performs an unguarded division — on every input, the instrumented engine
(in which each division faults on a zero divisor) runs to completion and
returns exactly the result of the uninstrumented engine.  On the error
paths no division is reached at all, and on the success path the
`SharesOutstanding > 0` precondition is established by the guard itself. -/
theorem buildYearProjection_no_division_fault (year : Int)
    (grouped : Int → List MonthlyRevenue) (manualYoY : Nat → Option ℚ)
    (asm : Assumptions) :
    buildYearProjectionChecked year grouped manualYoY asm =
      some (buildYearProjection year grouped manualYoY asm) := by
  unfold buildYearProjectionChecked buildYearProjection
    buildYearProjectionWithOrder
  by_cases h1 : (sortMonthlyRevenues (grouped year)).length = 0
  · simp [h1]
  · by_cases h2 : asm.sharesOutstanding ≤ 0
    · simp [h1, h2]
    · have hsh : asm.sharesOutstanding ≠ 0 := by
        intro h
        exact h2 (le_of_eq h)
      simp [h1, h2, projectionCoreChecked_eq monthsList year grouped
        manualYoY hsh]

/-! ### Claim C5 -/

/-- Spec-side rule, modelled from the claim's words for C5, reading its
cases in priority order: an actual month's MoM point is computed against
the revenue of the immediately preceding calendar month slot — the target
year's actual revenue of that month when it is actual in the target year;
for January (preceding slot December), the prior year's reported December
revenue; otherwise no MoM point is recorded. -/
def momPointSpec (mm : Nat → Option MonthlyRevenue) (pm : Nat → Option ℚ)
    (m : Nat) : Option ℚ :=
  match mm m with
  | none => none
  | some rec =>
    match mm (previousMonth m) with
    | some prevRec => some ((rec.revenue - prevRec.revenue) / prevRec.revenue)
    | none =>
      if previousMonth m = 12 then
        match pm (previousMonth m) with
        | some v => some ((rec.revenue - v) / v)
        | none => none
      else none

/-- Spec-side helper for C5: the arithmetic mean of the recorded points,
or 0 if none exist. -/
def meanOrZero (points : List ℚ) : ℚ :=
  if points.length = 0 then 0 else points.sum / (points.length : ℚ)

theorem actualMoMAt_eq_spec {year : Int} {mm : Nat → Option MonthlyRevenue}
    {pm : Nat → Option ℚ}
    (hmm : ∀ k r, mm k = some r → r.year = year ∧ 0 < r.revenue)
    (hpm : ∀ k v, pm k = some v → 0 < v) (m : Nat) :
    actualMoMAt mm pm m = momPointSpec mm pm m := by
  unfold actualMoMAt momPointSpec
  cases hm : mm m with
  | none => simp [hm]
  | some rec =>
    obtain ⟨hry, -⟩ := hmm m rec hm
    cases hp : mm (previousMonth m) with
    | some prevRec =>
      obtain ⟨hpy, hppos⟩ := hmm _ prevRec hp
      have hyy : prevRec.year = rec.year := by rw [hpy, hry]
      simp [hm, hp, hyy, not_le.mpr hppos]
    | none =>
      by_cases h12 : previousMonth m = 12
      · rw [h12] at hp
        cases hpm12 : pm 12 with
        | some v =>
          have hv := hpm _ v hpm12
          simp [hm, hp, h12, hpm12, not_le.mpr hv]
        | none => simp [hm, hp, h12, hpm12]
      · simp [hm, hp, h12]

/-- Claim C5: when all reported revenues are positive (the interesting
regime of the data model), the engine's recorded `actualMoM` points are
exactly the points described by the claim — each actual month's point is
computed against the immediately preceding calendar slot: the target
year's preceding actual month when present, the prior year's reported
December for January, and no point otherwise — and the engine's `avgMoM`
(the `AvgMoM` of every successful projection) is the arithmetic mean of
those points, or 0 when none exist. -/
theorem buildYearProjection_avgMoM_spec (year : Int)
    (grouped : Int → List MonthlyRevenue) (manualYoY : Nat → Option ℚ)
    (asm : Assumptions)
    (hcur : ∀ r ∈ grouped year, 0 < r.revenue)
    (hprev : ∀ r ∈ grouped (year - 1), 0 < r.revenue) :
    (∀ m, actualMoMAt (buildMonthMap year (sortMonthlyRevenues (grouped year)))
        (buildPrevMap (sortMonthlyRevenues (grouped (year - 1)))) m =
      momPointSpec (buildMonthMap year (sortMonthlyRevenues (grouped year)))
        (buildPrevMap (sortMonthlyRevenues (grouped (year - 1)))) m) ∧
    avgOf (momStats (buildMonthMap year (sortMonthlyRevenues (grouped year)))
        (buildPrevMap (sortMonthlyRevenues (grouped (year - 1))))).1
      (momStats (buildMonthMap year (sortMonthlyRevenues (grouped year)))
        (buildPrevMap (sortMonthlyRevenues (grouped (year - 1))))).2 =
      meanOrZero (monthsList.filterMap
        (momPointSpec (buildMonthMap year (sortMonthlyRevenues (grouped year)))
          (buildPrevMap (sortMonthlyRevenues (grouped (year - 1)))))) ∧
    ((buildYearProjection year grouped manualYoY asm).2 = none →
      (buildYearProjection year grouped manualYoY asm).1.avgMoM =
        meanOrZero (monthsList.filterMap
          (momPointSpec (buildMonthMap year (sortMonthlyRevenues (grouped year)))
            (buildPrevMap (sortMonthlyRevenues (grouped (year - 1))))))) := by
  have hmm : ∀ k r, buildMonthMap year (sortMonthlyRevenues (grouped year)) k =
      some r → r.year = year ∧ 0 < r.revenue := by
    intro k r hk
    obtain ⟨hrm, hry, -⟩ := buildMonthMap_eq_some hk
    exact ⟨hry, hcur r (mem_sortMonthlyRevenues.mp hrm)⟩
  have hpm : ∀ k v, buildPrevMap (sortMonthlyRevenues (grouped (year - 1))) k =
      some v → 0 < v := by
    intro k v hk
    obtain ⟨r, hr, -, hrv⟩ := buildPrevMap_eq_some hk
    rw [← hrv]
    exact hprev r (mem_sortMonthlyRevenues.mp hr)
  have hpoint := fun m => actualMoMAt_eq_spec hmm hpm m
  have hfun : actualMoMAt (buildMonthMap year (sortMonthlyRevenues (grouped year)))
      (buildPrevMap (sortMonthlyRevenues (grouped (year - 1)))) =
      momPointSpec (buildMonthMap year (sortMonthlyRevenues (grouped year)))
        (buildPrevMap (sortMonthlyRevenues (grouped (year - 1)))) :=
    funext hpoint
  have havg : avgOf (momStats (buildMonthMap year (sortMonthlyRevenues (grouped year)))
      (buildPrevMap (sortMonthlyRevenues (grouped (year - 1))))).1
      (momStats (buildMonthMap year (sortMonthlyRevenues (grouped year)))
        (buildPrevMap (sortMonthlyRevenues (grouped (year - 1))))).2 =
      meanOrZero (monthsList.filterMap
        (momPointSpec (buildMonthMap year (sortMonthlyRevenues (grouped year)))
          (buildPrevMap (sortMonthlyRevenues (grouped (year - 1)))))) := by
    rw [momStats_eq_filterMap, hfun]
    unfold avgOf meanOrZero
    by_cases hlen : (monthsList.filterMap
        (momPointSpec (buildMonthMap year (sortMonthlyRevenues (grouped year)))
          (buildPrevMap (sortMonthlyRevenues (grouped (year - 1)))))).length = 0
    · simp [hlen]
    · have hpos : 0 < (monthsList.filterMap
          (momPointSpec (buildMonthMap year (sortMonthlyRevenues (grouped year)))
            (buildPrevMap (sortMonthlyRevenues (grouped (year - 1)))))).length :=
        Nat.pos_of_ne_zero hlen
      simp [hlen, hpos]
  refine ⟨hpoint, havg, ?_⟩
  intro hsucc
  unfold buildYearProjection at hsucc ⊢
  obtain ⟨-, -, hcore⟩ := build_success hsucc
  rw [hcore]
  simp only [projectionCore]
  exact havg

theorem buildYearProjection_avgMoM_spec_witness :
    (∀ r ∈ sampleGrouped 2024, 0 < r.revenue) ∧
    (∀ r ∈ sampleGrouped (2024 - 1), 0 < r.revenue) ∧
    ((buildYearProjection 2024 sampleGrouped sampleManualYoY
        sampleAssumptions).2 = none →
      (buildYearProjection 2024 sampleGrouped sampleManualYoY
          sampleAssumptions).1.avgMoM =
        meanOrZero (monthsList.filterMap
          (momPointSpec
            (buildMonthMap 2024 (sortMonthlyRevenues (sampleGrouped 2024)))
            (buildPrevMap (sortMonthlyRevenues (sampleGrouped (2024 - 1))))))) :=
  ⟨by decide, by decide,
   (buildYearProjection_avgMoM_spec 2024 sampleGrouped sampleManualYoY
     sampleAssumptions (by decide) (by decide)).2.2⟩

end Valuation
